import Mathlib

set_option maxHeartbeats 1000000

/-!
Shallow embedding of the task-switch attention-accounting application
(`app.py`, `app2.py`, `app3.py`).  The mutable Python object graph
(User ↔ Quest ↔ TaskSwitchEvent with shared references) is embedded as an
arena: switch events live in one append-only list `switchArena`, and users
and quests refer to events by arena index; users and quests themselves are
interned per identifier in insertion-ordered association lists that model
the Python dicts `self.users` / `self.quests`.  Every Python object reached
from the store is the unique interned object for its identifier, so
identity-based equality in the source corresponds to identifier equality
here.  `datetime.now()` is an injected clock: each mutating operation takes
the current timestamp `now : Int` explicitly.  Durations (`timedelta`) are
`Int` (Python subtraction of datetimes is never clamped).
-/

/-- Lookup in an insertion-ordered association list (Python `dict.get`). -/
def lookupA {α : Type} : List (String × α) → String → Option α
  | [], _ => none
  | (k, v) :: rest, key => if k = key then some v else lookupA rest key

/-- Assignment `d[key] = v` on an insertion-ordered association list:
replaces the value in place when the key is present, appends otherwise
(CPython dict semantics). -/
def setA {α : Type} : List (String × α) → String → α → List (String × α)
  | [], key, v => [(key, v)]
  | (k, w) :: rest, key, v =>
      if k = key then (key, v) :: rest else (k, w) :: setA rest key v

/-- Apply a key-dependent function to every value of an association list. -/
def mapValsA {α : Type} (g : String → α → α) (l : List (String × α)) :
    List (String × α) :=
  l.map (fun p => (p.1, g p.1 p.2))

theorem lookupA_setA_self {α : Type} (k : String) (v : α) :
    ∀ l : List (String × α), lookupA (setA l k v) k = some v
  | [] => by simp [setA, lookupA]
  | (k1, w) :: rest => by
      by_cases h : k1 = k
      · simp [setA, h, lookupA]
      · simp [setA, h, lookupA, lookupA_setA_self k v rest]

theorem lookupA_setA_ne {α : Type} (k k2 : String) (v : α) (h : k2 ≠ k) :
    ∀ l : List (String × α), lookupA (setA l k v) k2 = lookupA l k2
  | [] => by simp [setA, lookupA, Ne.symm h]
  | (k1, w) :: rest => by
      by_cases h1 : k1 = k
      · subst h1
        simp [setA, lookupA, Ne.symm h]
      · simp [setA, h1, lookupA, lookupA_setA_ne k k2 v h rest]

theorem keys_setA_of_mem {α : Type} (k : String) (v : α) :
    ∀ l : List (String × α), k ∈ l.map Prod.fst →
      (setA l k v).map Prod.fst = l.map Prod.fst
  | [], h => by simp at h
  | (k1, w) :: rest, h => by
      by_cases h1 : k1 = k
      · simp [setA, h1]
      · have : k ∈ rest.map Prod.fst := by
          simp at h
          rcases h with h | h
          · exact absurd h.symm h1
          · simpa using h
        simp [setA, h1, keys_setA_of_mem k v rest this]

theorem keys_setA_of_not_mem {α : Type} (k : String) (v : α) :
    ∀ l : List (String × α), k ∉ l.map Prod.fst →
      (setA l k v).map Prod.fst = l.map Prod.fst ++ [k]
  | [], _ => by simp [setA]
  | (k1, w) :: rest, h => by
      have h1 : k1 ≠ k := by
        intro h2; exact h (by simp [h2])
      have h2 : k ∉ rest.map Prod.fst := by
        intro h3; exact h (by simp [h3])
      simp [setA, h1, keys_setA_of_not_mem k v rest h2]

theorem lookupA_eq_none_iff {α : Type} (k : String) :
    ∀ l : List (String × α), lookupA l k = none ↔ k ∉ l.map Prod.fst
  | [] => by simp [lookupA]
  | (k1, w) :: rest => by
      by_cases h : k1 = k
      · simp [lookupA, h]
      · simp [lookupA, h, lookupA_eq_none_iff k rest, Ne.symm h]

theorem mem_of_lookupA {α : Type} (k : String) (v : α) :
    ∀ l : List (String × α), lookupA l k = some v → (k, v) ∈ l
  | [], h => by simp [lookupA] at h
  | (k1, w) :: rest, h => by
      by_cases h1 : k1 = k
      · simp [lookupA, h1] at h
        simp [h1, h]
      · simp [lookupA, h1] at h
        exact List.mem_cons_of_mem _ (mem_of_lookupA k v rest h)

theorem lookupA_of_mem {α : Type} (k : String) (v : α) :
    ∀ l : List (String × α), (l.map Prod.fst).Nodup → (k, v) ∈ l →
      lookupA l k = some v
  | [], _, h => by simp at h
  | (k1, w) :: rest, hnd, h => by
      simp at h
      rcases h with ⟨h1, h2⟩ | h
      · simp [lookupA, h1, h2]
      · have hk : k1 ≠ k := by
          intro h2
          subst h2
          have : k1 ∈ rest.map Prod.fst := by
            exact List.mem_map.mpr ⟨(k1, v), h, rfl⟩
          simp at hnd
          exact hnd.1 v h
        have hnd2 : (rest.map Prod.fst).Nodup := by simp at hnd; exact hnd.2
        simp [lookupA, hk, lookupA_of_mem k v rest hnd2 h]

theorem lookupA_mapValsA {α : Type} (g : String → α → α) (k : String) :
    ∀ l : List (String × α),
      lookupA (mapValsA g l) k = (lookupA l k).map (g k)
  | [] => by simp [mapValsA, lookupA]
  | (k1, w) :: rest => by
      by_cases h : k1 = k
      · subst h; simp [mapValsA, lookupA]
      · simp [mapValsA, lookupA, h] at lookupA_mapValsA g k rest ⊢
        simpa [mapValsA] using lookupA_mapValsA g k rest

theorem keys_mapValsA {α : Type} (g : String → α → α)
    (l : List (String × α)) :
    (mapValsA g l).map Prod.fst = l.map Prod.fst := by
  simp [mapValsA]

theorem sum_map_const_zero {α : Type} (l : List α) :
    (l.map (fun _ => (0 : Int))).sum = 0 := by
  induction l with
  | nil => simp
  | cons a l ih => simp [ih]

theorem sum_map_add_eq {α : Type} (l : List α) (f g : α → Int) :
    (l.map (fun x => f x + g x)).sum = (l.map f).sum + (l.map g).sum := by
  induction l with
  | nil => simp
  | cons a l ih => simp [ih]; ring

theorem get_some_of_getLast_some {α : Type} :
    ∀ (l : List α) (a : α), l.getLast? = some a → ∃ i, l.get? i = some a ∧
      l.getLast? = some a
  | [], a, h => by simp at h
  | [b], a, h => by
      refine ⟨0, ?_, h⟩
      simp at h
      simp [h]
  | b :: c :: l, a, h => by
      rw [List.getLast?_cons_cons] at h
      obtain ⟨i, hi, _⟩ := get_some_of_getLast_some (c :: l) a h
      exact ⟨i + 1, by simpa using hi, by rw [List.getLast?_cons_cons]; exact h⟩

theorem lt_of_get?_eq_some {α : Type} :
    ∀ (l : List α) (i : Nat) (a : α), l.get? i = some a → i < l.length
  | [], i, a, h => by rw [List.get?_nil] at h; exact absurd h (by simp)
  | b :: l, 0, a, h => by simp
  | b :: l, i + 1, a, h => by
      rw [List.get?_cons_succ] at h
      exact Nat.succ_lt_succ (lt_of_get?_eq_some l i a h)

theorem mem_of_get?_eq_some {α : Type} :
    ∀ (l : List α) (i : Nat) (a : α), l.get? i = some a → a ∈ l
  | [], i, a, h => by rw [List.get?_nil] at h; exact absurd h (by simp)
  | b :: l, 0, a, h => by
      rw [List.get?_cons_zero] at h
      exact (Option.some_inj.mp h) ▸ List.mem_cons_self b l
  | b :: l, i + 1, a, h => by
      rw [List.get?_cons_succ] at h
      exact List.mem_cons_of_mem _ (mem_of_get?_eq_some l i a h)

/-- A `TaskSwitchEvent` (app3.py lines 34-48).  The Python attributes
`user`, `quest` and `previous_event` are object references; they are
embedded as the user identifier, the quest identifier and the arena index
of the previous event.  `event_id` is the numeric counter value from which
the Python string id `event_{n}` is formatted; it is assigned from
`event_counter` immediately after construction and before the event is
observed, so it is stored at construction here. -/
structure SwitchEvent where
  event_id : Nat
  userId : String
  questId : String
  previous_event : Option Nat
  timestamp : Int
  duration_on_previous_quest : Option Int
  deriving DecidableEq

/-- A `QuestAccomplishmentEvent` (app3.py lines 50-54), with references
embedded as identifiers. -/
structure QuestAccomplishmentEvent where
  userId : String
  questId : String
  timestamp : Int
  deriving DecidableEq

/-- An entry of the heterogeneous `db.events` list of app3.py: either a
switch event (arena index into `switchArena`) or an accomplishment event
(arena index into `accompArena`). -/
inductive DbEvent
  | switch (i : Nat)
  | accomp (i : Nat)
  deriving DecidableEq

/-- A `User` (app3.py lines 9-16).  Lists of event objects are lists of
arena indices; `accomplished_quests` holds quest identifiers (each Quest
object is interned in `db.quests` under its id); `archived_quests` is the
Python set of quest-id strings. -/
structure User where
  user_id : String
  task_events : List Nat
  accomplished_quests : List String
  notifications : List Nat
  accomplishment_notifications : List Nat
  archived_quests : Finset String
  deriving DecidableEq

/-- A `Quest` (app3.py lines 22-28), with the creator reference embedded
as an optional user identifier. -/
structure Quest where
  quest_id : String
  creator : Option String
  total_attention_time : Int
  task_events : List Nat
  accomplished_by : Option String
  deriving DecidableEq

/-- `User.__init__` of app3.py. -/
def newUser (uid : String) : User :=
  { user_id := uid
    task_events := []
    accomplished_quests := []
    notifications := []
    accomplishment_notifications := []
    archived_quests := ∅ }

/-- `Quest.__init__` of app3.py. -/
def newQuest (qid : String) (creator : Option String) : Quest :=
  { quest_id := qid
    creator := creator
    total_attention_time := 0
    task_events := []
    accomplished_by := none }

/-- The `CentralizedDatabase` state of app3.py.  `switchArena` and
`accompArena` are the arenas holding every constructed event object, in
construction order; `events` and `accomplishment_events` mirror the
`self.events` / `self.accomplishment_events` lists. -/
structure CentralizedDatabase where
  users : List (String × User)
  quests : List (String × Quest)
  switchArena : List SwitchEvent
  accompArena : List QuestAccomplishmentEvent
  events : List DbEvent
  accomplishment_events : List Nat
  event_counter : Nat
  deriving DecidableEq

/-- `CentralizedDatabase.__init__` of app3.py (three users, three quests,
no events). -/
def initialDatabase : CentralizedDatabase :=
  { users := [("user_earth", newUser "user_earth"),
              ("user_sky", newUser "user_sky"),
              ("user_ocean", newUser "user_ocean")]
    quests := [("quest_reforest", newQuest "quest_reforest" none),
               ("quest_clean_water", newQuest "quest_clean_water" none),
               ("quest_solar_energy", newQuest "quest_solar_energy" none)]
    switchArena := []
    accompArena := []
    events := []
    accomplishment_events := []
    event_counter := 0 }

/-- `CentralizedDatabase.add_task_switch_event` of app3.py (lines 78-91),
including the `TaskSwitchEvent.__init__` side effects (lines 34-48): if
user or quest is unknown the call silently returns; otherwise the new
event closes the user's previous attention interval, crediting
`now - prev.timestamp` to the previous event's quest, and is appended to
the user's chain, the quest's event list, the global event log and the
user's notifications.  `now` is the injected `datetime.now()`. -/
def add_task_switch_event (db : CentralizedDatabase)
    (user_id quest_id : String) (now : Int) : CentralizedDatabase :=
  match lookupA db.users user_id, lookupA db.quests quest_id with
  | some user, some quest =>
      let newIdx := db.switchArena.length
      let prevIdx := user.task_events.getLast?
      let prevEv := prevIdx.bind (fun i => db.switchArena.get? i)
      let dur := prevEv.map (fun p => now - p.timestamp)
      let ev : SwitchEvent :=
        { event_id := db.event_counter
          userId := user_id
          questId := quest_id
          previous_event := prevIdx
          timestamp := now
          duration_on_previous_quest := dur }
      let quests1 :=
        match prevEv with
        | none => db.quests
        | some p =>
            match lookupA db.quests p.questId with
            | none => db.quests
            | some pq =>
                setA db.quests p.questId
                  { pq with total_attention_time :=
                      pq.total_attention_time + (now - p.timestamp) }
      let users1 := setA db.users user_id
        { user with task_events := user.task_events ++ [newIdx] }
      let quests2 :=
        match lookupA quests1 quest_id with
        | none => quests1
        | some q1 =>
            setA quests1 quest_id
              { q1 with task_events := q1.task_events ++ [newIdx] }
      let users2 :=
        match lookupA users1 user_id with
        | none => users1
        | some u1 =>
            setA users1 user_id
              { u1 with notifications := u1.notifications ++ [newIdx] }
      { db with
        users := users2
        quests := quests2
        switchArena := db.switchArena ++ [ev]
        events := db.events ++ [DbEvent.switch newIdx]
        event_counter := db.event_counter + 1 }
  | _, _ => db

/-- The de-duplicated contributing set of `accomplish_quest` (app3.py line
105-106): every user with a switch event in the quest's event list, plus
the accomplisher.  Python's `set` is embedded as a deduplicated id list;
only membership is observable (each member receives one notification). -/
def contributingUsers (db : CentralizedDatabase) (quest : Quest)
    (user_id : String) : List String :=
  (((quest.task_events.filterMap (fun i => db.switchArena.get? i)).map
      (fun e => e.userId)) ++ [user_id]).dedup

/-- `CentralizedDatabase.accomplish_quest` of app3.py (lines 93-109).
Note the source performs no holder check: `accomplished_by` is overwritten
unconditionally whenever quest and user exist. -/
def accomplish_quest (db : CentralizedDatabase)
    (quest_id user_id : String) (now : Int) : CentralizedDatabase :=
  match lookupA db.quests quest_id, lookupA db.users user_id with
  | some quest, some user =>
      let quests1 := setA db.quests quest_id
        { quest with accomplished_by := some user_id }
      let users1 := setA db.users user_id
        { user with accomplished_quests :=
            if quest_id ∈ user.accomplished_quests then
              user.accomplished_quests
            else user.accomplished_quests ++ [quest_id] }
      let idx := db.accompArena.length
      let ev : QuestAccomplishmentEvent :=
        { userId := user_id, questId := quest_id, timestamp := now }
      let contrib := contributingUsers db quest user_id
      let users2 := mapValsA
        (fun uid u =>
          if uid ∈ contrib then
            { u with accomplishment_notifications :=
                u.accomplishment_notifications ++ [idx] }
          else u)
        users1
      { db with
        quests := quests1
        users := users2
        accompArena := db.accompArena ++ [ev]
        events := db.events ++ [DbEvent.accomp idx]
        accomplishment_events := db.accomplishment_events ++ [idx] }
  | _, _ => db

/-- `CentralizedDatabase.assign_quest` of app3.py (lines 111-124).  The
guard `quest.accomplished_by == assigning_user` compares interned objects,
embedded as id equality.  On success the quest is erased from the
assigning user's accomplished list (`list.remove`: first occurrence, no-op
when absent is guarded by `in`), the holder is replaced, and the assigned
user receives the quest and the only notification. -/
def assign_quest (db : CentralizedDatabase)
    (quest_id assign_user_id assigning_user_id : String) (now : Int) :
    CentralizedDatabase :=
  match lookupA db.quests quest_id, lookupA db.users assign_user_id,
        lookupA db.users assigning_user_id with
  | some quest, some _, some assigningUser =>
      if quest.accomplished_by = some assigning_user_id then
        let users1 := setA db.users assigning_user_id
          { assigningUser with accomplished_quests :=
              assigningUser.accomplished_quests.erase quest_id }
        let quests1 := setA db.quests quest_id
          { quest with accomplished_by := some assign_user_id }
        let idx := db.accompArena.length
        let ev : QuestAccomplishmentEvent :=
          { userId := assign_user_id, questId := quest_id, timestamp := now }
        match lookupA users1 assign_user_id with
        | none => db
        | some au =>
            let users2 := setA users1 assign_user_id
              { au with
                accomplished_quests := au.accomplished_quests ++ [quest_id]
                accomplishment_notifications :=
                  au.accomplishment_notifications ++ [idx] }
            { db with
              users := users2
              quests := quests1
              accompArena := db.accompArena ++ [ev]
              events := db.events ++ [DbEvent.accomp idx]
              accomplishment_events := db.accomplishment_events ++ [idx] }
      else db
  | _, _, _ => db

/-- `CentralizedDatabase.create_quest` of app3.py (lines 126-135):
normalizes the id, no-ops on a duplicate id or unknown creator, otherwise
inserts a fresh quest with the creator recorded. -/
def create_quest (db : CentralizedDatabase) (quest_id creator_id : String) :
    CentralizedDatabase :=
  let qid := if quest_id.startsWith "quest_" then quest_id
             else "quest_" ++ quest_id
  match lookupA db.quests qid with
  | some _ => db
  | none =>
      match lookupA db.users creator_id with
      | none => db
      | some _ =>
          { db with quests := setA db.quests qid (newQuest qid (some creator_id)) }

/-- `CentralizedDatabase.archive_quest` of app3.py (lines 137-140). -/
def archive_quest (db : CentralizedDatabase) (user_id quest_id : String) :
    CentralizedDatabase :=
  match lookupA db.users user_id with
  | some user =>
      if (lookupA db.quests quest_id).isSome then
        let user1 := { user with
          archived_quests := insert quest_id user.archived_quests }
        { db with users := setA db.users user_id user1 }
      else db
  | none => db

/-- `CentralizedDatabase.unarchive_quest` of app3.py (lines 142-145). -/
def unarchive_quest (db : CentralizedDatabase) (user_id quest_id : String) :
    CentralizedDatabase :=
  match lookupA db.users user_id with
  | some user =>
      if quest_id ∈ user.archived_quests then
        let user1 := { user with
          archived_quests := user.archived_quests.erase quest_id }
        { db with users := setA db.users user_id user1 }
      else db
  | none => db

/-- The dictionary returned by `get_dashboard_data` (app3.py 147-159). -/
structure DashboardData where
  selected_user : User
  users : List User
  active_quests : List Quest
  archived_quests : List Quest
  events : List DbEvent
  accomplishment_events : List Nat
  deriving DecidableEq

/-- `CentralizedDatabase.get_dashboard_data` of app3.py (lines 147-159).
The source dereferences `selected_user.archived_quests` without a guard:
when the selected user id is unknown, `self.users.get` returns `None` and
the attribute access raises `AttributeError`.  The fault is embedded as
`none`; a normal return is `some`.  Quests are sorted stably by descending
accumulated attention time, then split by the selected user's archive
set. -/
def get_dashboard_data (db : CentralizedDatabase)
    (selected_user_id : String) : Option DashboardData :=
  match lookupA db.users selected_user_id with
  | none => none
  | some selected_user =>
      let sorted_quests := (db.quests.map Prod.snd).mergeSort
        (fun a b => b.total_attention_time ≤ a.total_attention_time)
      some { selected_user := selected_user
             users := db.users.map Prod.snd
             active_quests := sorted_quests.filter
               (fun q => decide (q.quest_id ∉ selected_user.archived_quests))
             archived_quests := sorted_quests.filter
               (fun q => decide (q.quest_id ∈ selected_user.archived_quests))
             events := db.events
             accomplishment_events := db.accomplishment_events }

/-- One mutating entry point of app3.py, with the clock value injected for
the operations that call `datetime.now()`. -/
inductive Op
  | switch (user_id quest_id : String) (now : Int)
  | accomplish (quest_id user_id : String) (now : Int)
  | assign (quest_id assign_user_id assigning_user_id : String) (now : Int)
  | create (quest_id creator_id : String)
  | archive (user_id quest_id : String)
  | unarchive (user_id quest_id : String)
  deriving DecidableEq

def applyOp (db : CentralizedDatabase) : Op → CentralizedDatabase
  | Op.switch u q t => add_task_switch_event db u q t
  | Op.accomplish q u t => accomplish_quest db q u t
  | Op.assign q au asu t => assign_quest db q au asu t
  | Op.create q c => create_quest db q c
  | Op.archive u q => archive_quest db u q
  | Op.unarchive u q => unarchive_quest db u q

def applyOps (db : CentralizedDatabase) (ops : List Op) :
    CentralizedDatabase :=
  ops.foldl applyOp db

/-- The clock reading consumed by an operation's switch event, when any. -/
def opTime : Op → Option Int
  | Op.switch _ _ t => some t
  | _ => none

/-- The clock is monotonically non-decreasing, starting at `lb`, over the
switch events of an operation sequence. -/
def timesOkB : Int → List Op → Bool
  | _, [] => true
  | lb, op :: rest =>
      match opTime op with
      | some t => decide (lb ≤ t) && timesOkB t rest
      | none => timesOkB lb rest

/-- The clock value after running the sequence. -/
def endTime : Int → List Op → Int
  | lb, [] => lb
  | lb, op :: rest =>
      endTime (match opTime op with | some t => t | none => lb) rest

/-- The predecessor event of a switch event, resolved in the arena. -/
def prevEvent (arena : List SwitchEvent) (e : SwitchEvent) :
    Option SwitchEvent :=
  e.previous_event.bind (fun i => arena.get? i)

/-- The closing delta of a switch event: its timestamp minus its
predecessor's, or `0` when it opened its user's chain. -/
def closeDelta (arena : List SwitchEvent) (e : SwitchEvent) : Int :=
  match prevEvent arena e with
  | none => 0
  | some p => e.timestamp - p.timestamp

/-- The quest on which a switch event closes an attention interval: its
predecessor's destination quest. -/
def prevQuestId (arena : List SwitchEvent) (e : SwitchEvent) :
    Option String :=
  (prevEvent arena e).map (fun p => p.questId)

/-- Sum, over every closed attention interval (every switch event with a
successor in the same user's chain), of successor timestamp minus
predecessor timestamp. -/
def closedSum (arena : List SwitchEvent) : Int :=
  (arena.map (closeDelta arena)).sum

/-- Sum of the closing deltas recorded against one quest. -/
def deltaSum (arena : List SwitchEvent) (qid : String) : Int :=
  (arena.map (fun e =>
    if prevQuestId arena e = some qid then closeDelta arena e else 0)).sum

/-- Sum of every quest's accumulated attention duration. -/
def totalsSum (db : CentralizedDatabase) : Int :=
  (db.quests.map (fun p => p.2.total_attention_time)).sum

namespace App2

/-- A `User` of app2.py (lines 8-12): identifier, event chain (arena
indices) and the list of stewarded quests (quest identifiers; Quest
objects are interned per id). -/
structure User where
  user_id : String
  task_events : List Nat
  stewarded_quests : List String
  deriving DecidableEq

/-- A `Quest` of app2.py (lines 19-24). -/
structure Quest where
  quest_id : String
  total_attention_time : Int
  task_events : List Nat
  steward : Option String
  deriving DecidableEq

/-- The slice of app2.py's `CentralizedDatabase` state touched by
`claim_stewardship`: the user and quest stores. -/
structure DB where
  users : List (String × User)
  quests : List (String × Quest)
  deriving DecidableEq

/-- `CentralizedDatabase.claim_stewardship` of app2.py (lines 86-95), the
guarded variant: the claim succeeds only when quest and user exist and the
quest has no steward or is already stewarded by the claimant
(`quest.steward is None or quest.steward.user_id == user_id`).  On success
the old steward's reference is removed (`list.remove`, first occurrence)
and the claimant becomes steward. -/
def claim_stewardship (db : DB) (quest_id user_id : String) : DB :=
  match lookupA db.quests quest_id, lookupA db.users user_id with
  | some quest, some _ =>
      if quest.steward = none ∨ quest.steward = some user_id then
        let users1 :=
          match quest.steward with
          | some sid =>
              match lookupA db.users sid with
              | some sUser =>
                  let sUser1 := { sUser with
                    stewarded_quests := sUser.stewarded_quests.erase quest_id }
                  setA db.users sid sUser1
              | none => db.users
          | none => db.users
        let quests1 := setA db.quests quest_id
          { quest with steward := some user_id }
        match lookupA users1 user_id with
        | some u1 =>
            let u2 := { u1 with
              stewarded_quests := u1.stewarded_quests ++ [quest_id] }
            { users := setA users1 user_id u2, quests := quests1 }
        | none => { users := users1, quests := quests1 }
      else db
  | _, _ => db

/-- `User.__init__` of app2.py. -/
def newUser (uid : String) : User :=
  { user_id := uid, task_events := [], stewarded_quests := [] }

/-- `Quest.__init__` of app2.py. -/
def newQuest (qid : String) : Quest :=
  { quest_id := qid, total_attention_time := 0, task_events := [],
    steward := none }

/-- The prepopulated store of app2.py's `CentralizedDatabase.__init__`
(lines 51-68): two users, three quests, then three initial stewardship
claims. -/
def initialDB : DB :=
  let base : DB :=
    { users := [("user_earth", newUser "user_earth"),
                ("user_sky", newUser "user_sky")]
      quests := [("quest_reforest", newQuest "quest_reforest"),
                 ("quest_clean_water", newQuest "quest_clean_water"),
                 ("quest_solar_energy", newQuest "quest_solar_energy")] }
  claim_stewardship
    (claim_stewardship
      (claim_stewardship base "quest_reforest" "user_earth")
      "quest_clean_water" "user_sky")
    "quest_solar_energy" "user_earth"

end App2

set_option linter.unusedVariables false

/-! Arena-extension lemmas: appending a new event does not change the
predecessor resolution, closing delta or closing quest of the events
already present, provided their predecessor indices point inside the old
arena. -/

theorem prevEvent_append (arena : List SwitchEvent) (x e : SwitchEvent)
    (h : ∀ i, e.previous_event = some i → i < arena.length) :
    prevEvent (arena ++ [x]) e = prevEvent arena e := by
  unfold prevEvent
  cases hp : e.previous_event with
  | none => rfl
  | some i =>
      show (arena ++ [x]).get? i = arena.get? i
      exact List.get?_append (h i hp)

theorem closeDelta_append (arena : List SwitchEvent) (x e : SwitchEvent)
    (h : ∀ i, e.previous_event = some i → i < arena.length) :
    closeDelta (arena ++ [x]) e = closeDelta arena e := by
  unfold closeDelta
  rw [prevEvent_append arena x e h]

theorem prevQuestId_append (arena : List SwitchEvent) (x e : SwitchEvent)
    (h : ∀ i, e.previous_event = some i → i < arena.length) :
    prevQuestId (arena ++ [x]) e = prevQuestId arena e := by
  unfold prevQuestId
  rw [prevEvent_append arena x e h]

theorem deltaSum_append (arena : List SwitchEvent) (x : SwitchEvent)
    (qid : String)
    (h : ∀ e ∈ arena, ∀ i, e.previous_event = some i → i < arena.length) :
    deltaSum (arena ++ [x]) qid =
      deltaSum arena qid +
        (if prevQuestId (arena ++ [x]) x = some qid then
          closeDelta (arena ++ [x]) x else 0) := by
  unfold deltaSum
  rw [List.map_append, List.sum_append]
  congr 1
  · apply congrArg
    apply List.map_congr_left
    intro e he
    rw [closeDelta_append arena x e (h e he),
        prevQuestId_append arena x e (h e he)]
  · simp

theorem closedSum_append (arena : List SwitchEvent) (x : SwitchEvent)
    (h : ∀ e ∈ arena, ∀ i, e.previous_event = some i → i < arena.length) :
    closedSum (arena ++ [x]) = closedSum arena + closeDelta (arena ++ [x]) x := by
  unfold closedSum
  rw [List.map_append, List.sum_append]
  congr 1
  · apply congrArg
    apply List.map_congr_left
    intro e he
    exact closeDelta_append arena x e (h e he)
  · simp

/-! Characterization of a successful `add_task_switch_event`. -/

theorem add_switch_arena_char (db : CentralizedDatabase)
    (user_id quest_id : String) (now : Int) (user : User) (quest : Quest)
    (hu : lookupA db.users user_id = some user)
    (hq : lookupA db.quests quest_id = some quest) :
    (add_task_switch_event db user_id quest_id now).switchArena =
      db.switchArena ++
        [{ event_id := db.event_counter
           userId := user_id
           questId := quest_id
           previous_event := user.task_events.getLast?
           timestamp := now
           duration_on_previous_quest :=
             (user.task_events.getLast?.bind
               (fun i => db.switchArena.get? i)).map
                 (fun p => now - p.timestamp) }] := by
  simp only [add_task_switch_event, hu, hq]

theorem add_switch_frame (db : CentralizedDatabase)
    (user_id quest_id : String) (now : Int) (user : User) (quest : Quest)
    (hu : lookupA db.users user_id = some user)
    (hq : lookupA db.quests quest_id = some quest) :
    (add_task_switch_event db user_id quest_id now).events =
      db.events ++ [DbEvent.switch db.switchArena.length] ∧
    (add_task_switch_event db user_id quest_id now).event_counter =
      db.event_counter + 1 ∧
    (add_task_switch_event db user_id quest_id now).accompArena =
      db.accompArena ∧
    (add_task_switch_event db user_id quest_id now).accomplishment_events =
      db.accomplishment_events := by
  refine ⟨?_, ?_, ?_, ?_⟩ <;> simp only [add_task_switch_event, hu, hq]

theorem add_users_char (db : CentralizedDatabase)
    (user_id quest_id : String) (now : Int) (user : User) (quest : Quest)
    (hu : lookupA db.users user_id = some user)
    (hq : lookupA db.quests quest_id = some quest) :
    ∀ k, lookupA (add_task_switch_event db user_id quest_id now).users k =
      (lookupA db.users k).map (fun u1 =>
        if k = user_id then
          { u1 with
            task_events := u1.task_events ++ [db.switchArena.length]
            notifications := u1.notifications ++ [db.switchArena.length] }
        else u1) := by
  intro k
  simp only [add_task_switch_event, hu, hq]
  by_cases hk : k = user_id
  · subst hk
    simp [lookupA_setA_self, hu]
  · simp only [lookupA_setA_self, lookupA_setA_ne _ _ _ hk]
    cases lookupA db.users k <;> simp [hk]

theorem add_quests_char (db : CentralizedDatabase)
    (user_id quest_id : String) (now : Int) (user : User) (quest : Quest)
    (i : Nat) (prev : SwitchEvent) (pq : Quest)
    (hu : lookupA db.users user_id = some user)
    (hq : lookupA db.quests quest_id = some quest)
    (hlast : user.task_events.getLast? = some i)
    (hgi : db.switchArena.get? i = some prev)
    (hpq : lookupA db.quests prev.questId = some pq) :
    ∀ k, lookupA (add_task_switch_event db user_id quest_id now).quests k =
      (lookupA db.quests k).map (fun q1 =>
        { q1 with
          total_attention_time := q1.total_attention_time +
            (if prev.questId = k then now - prev.timestamp else 0)
          task_events := q1.task_events ++
            (if k = quest_id then [db.switchArena.length] else []) }) := by
  intro k
  have hbind : user.task_events.getLast?.bind
      (fun j => db.switchArena.get? j) = some prev := by
    rw [hlast]; exact hgi
  simp only [add_task_switch_event, hu, hq, hbind, hpq]
  by_cases hqp : prev.questId = quest_id
  · have hpqq : pq = quest := by
      rw [hqp, hq] at hpq
      exact (Option.some_inj.mp hpq).symm
    subst hpqq
    rw [hqp]
    rw [lookupA_setA_self]
    by_cases hk : k = quest_id
    · subst hk
      rw [lookupA_setA_self, hq]
      simp [hqp]
    · have hqk : ¬ (quest_id = k) := fun h => hk h.symm
      rw [lookupA_setA_ne _ _ _ hk, lookupA_setA_ne _ _ _ hk]
      cases lookupA db.quests k <;> simp [hk, hqk]
  · have hq1 : lookupA (setA db.quests prev.questId
        { pq with total_attention_time :=
            pq.total_attention_time + (now - prev.timestamp) }) quest_id =
        some quest := by
      rw [lookupA_setA_ne _ _ _ (fun h => hqp h.symm)]
      exact hq
    simp only [hq1]
    by_cases hk : k = quest_id
    · subst hk
      rw [lookupA_setA_self, hq]
      simp [hqp]
    · rw [lookupA_setA_ne _ _ _ hk]
      by_cases hk2 : k = prev.questId
      · subst hk2
        rw [lookupA_setA_self, hpq]
        simp [hk]
      · have hpk : ¬ (prev.questId = k) := fun h => hk2 h.symm
        rw [lookupA_setA_ne _ _ _ hk2]
        cases lookupA db.quests k <;> simp [hk, hpk]

theorem add_quests_char_first (db : CentralizedDatabase)
    (user_id quest_id : String) (now : Int) (user : User) (quest : Quest)
    (hu : lookupA db.users user_id = some user)
    (hq : lookupA db.quests quest_id = some quest)
    (hlast : user.task_events.getLast? = none) :
    ∀ k, lookupA (add_task_switch_event db user_id quest_id now).quests k =
      (lookupA db.quests k).map (fun q1 =>
        { q1 with
          task_events := q1.task_events ++
            (if k = quest_id then [db.switchArena.length] else []) }) := by
  intro k
  have hbind : user.task_events.getLast?.bind
      (fun j => db.switchArena.get? j) = (none : Option SwitchEvent) := by
    rw [hlast]; rfl
  simp only [add_task_switch_event, hu, hq, hbind]
  by_cases hk : k = quest_id
  · subst hk
    rw [lookupA_setA_self, hq]
    simp
  · rw [lookupA_setA_ne _ _ _ hk]
    cases lookupA db.quests k <;> simp [hk]

/-- Well-formedness invariant of reachable `CentralizedDatabase` states. -/
structure DbInv (db : CentralizedDatabase) : Prop where
  uNodup : (db.users.map Prod.fst).Nodup
  qNodup : (db.quests.map Prod.fst).Nodup
  chainValid : ∀ uid u, lookupA db.users uid = some u →
    ∀ i ∈ u.task_events, ∃ e, db.switchArena.get? i = some e ∧ e.userId = uid
  prevValid : ∀ e ∈ db.switchArena, ∀ i, e.previous_event = some i →
    i < db.switchArena.length
  eventQuestKey : ∀ e ∈ db.switchArena,
    ∃ q, lookupA db.quests e.questId = some q
  totalsEq : ∀ k q, lookupA db.quests k = some q →
    q.total_attention_time = deltaSum db.switchArena k
  lastNotPrev : ∀ uid u, lookupA db.users uid = some u →
    ∀ j, u.task_events.getLast? = some j →
    ∀ e ∈ db.switchArena, e.previous_event ≠ some j

/-- All switch-event timestamps are bounded by the current clock value. -/
def tsBound (db : CentralizedDatabase) (lb : Int) : Prop :=
  ∀ e ∈ db.switchArena, e.timestamp ≤ lb

theorem tsBound_mono (db : CentralizedDatabase) (lb lb2 : Int)
    (h : tsBound db lb) (hle : lb ≤ lb2) : tsBound db lb2 :=
  fun e he => le_trans (h e he) hle

theorem inv_initial : DbInv initialDatabase := by
  refine ⟨?_, ?_, ?_, ?_, ?_, ?_, ?_⟩
  · decide
  · decide
  · intro uid u h i hi
    simp only [initialDatabase, lookupA] at h
    split_ifs at h <;> injection h with h2 <;> subst h2 <;>
      simp [newUser] at hi
  · intro e he
    simp [initialDatabase] at he
  · intro e he
    simp [initialDatabase] at he
  · intro k q h
    simp only [initialDatabase, lookupA] at h
    split_ifs at h <;> injection h with h2 <;> subst h2 <;>
      simp [newQuest, deltaSum, initialDatabase]
  · intro uid u h j hj e he
    simp [initialDatabase] at he

theorem tsBound_initial (lb : Int) : tsBound initialDatabase lb := by
  intro e he
  simp [initialDatabase] at he

theorem add_noop (db : CentralizedDatabase) (user_id quest_id : String)
    (now : Int)
    (h : lookupA db.users user_id = none ∨ lookupA db.quests quest_id = none) :
    add_task_switch_event db user_id quest_id now = db := by
  unfold add_task_switch_event
  rcases h with h | h
  · rw [h]
  · rw [h]
    cases lookupA db.users user_id <;> rfl

theorem add_users_keys (db : CentralizedDatabase)
    (user_id quest_id : String) (now : Int) (user : User) (quest : Quest)
    (hu : lookupA db.users user_id = some user)
    (hq : lookupA db.quests quest_id = some quest) :
    (add_task_switch_event db user_id quest_id now).users.map Prod.fst =
      db.users.map Prod.fst := by
  have hmem : user_id ∈ db.users.map Prod.fst :=
    List.mem_map.mpr ⟨_, mem_of_lookupA _ _ _ hu, rfl⟩
  simp only [add_task_switch_event, hu, hq, lookupA_setA_self]
  rw [keys_setA_of_mem _ _ _ (by rw [keys_setA_of_mem _ _ _ hmem]; exact hmem),
    keys_setA_of_mem _ _ _ hmem]

theorem add_quests_keys (db : CentralizedDatabase)
    (user_id quest_id : String) (now : Int) (user : User) (quest : Quest)
    (hu : lookupA db.users user_id = some user)
    (hq : lookupA db.quests quest_id = some quest) :
    (add_task_switch_event db user_id quest_id now).quests.map Prod.fst =
      db.quests.map Prod.fst := by
  have hqmem : quest_id ∈ db.quests.map Prod.fst :=
    List.mem_map.mpr ⟨_, mem_of_lookupA _ _ _ hq, rfl⟩
  simp only [add_task_switch_event, hu, hq]
  cases hbind : user.task_events.getLast?.bind
      (fun j => db.switchArena.get? j) with
  | none =>
      simp only [hq]
      rw [keys_setA_of_mem _ _ _ hqmem]
  | some p =>
      cases hpq : lookupA db.quests p.questId with
      | none =>
          simp only [hpq, hq]
          rw [keys_setA_of_mem _ _ _ hqmem]
      | some pq =>
          have hpmem : p.questId ∈ db.quests.map Prod.fst :=
            List.mem_map.mpr ⟨_, mem_of_lookupA _ _ _ hpq, rfl⟩
          simp only [hpq]
          have hpk : (setA db.quests p.questId
              { pq with total_attention_time :=
                  pq.total_attention_time + (now - p.timestamp) }).map
                Prod.fst = db.quests.map Prod.fst :=
            keys_setA_of_mem _ _ _ hpmem
          have hq1 : quest_id ∈ (setA db.quests p.questId
              { pq with total_attention_time :=
                  pq.total_attention_time + (now - p.timestamp) }).map
                Prod.fst := by
            rw [hpk]; exact hqmem
          cases hq2 : lookupA (setA db.quests p.questId
              { pq with total_attention_time :=
                  pq.total_attention_time + (now - p.timestamp) }) quest_id with
          | none =>
              simp only [hq2]
              exact hpk
          | some q1 =>
              simp only [hq2]
              rw [keys_setA_of_mem _ _ _ hq1]
              exact hpk

theorem prevQuestId_new (arena : List SwitchEvent) (ev prev : SwitchEvent)
    (i : Nat) (hev : ev.previous_event = some i)
    (hgi : arena.get? i = some prev) (hlt : i < arena.length) :
    prevQuestId (arena ++ [ev]) ev = some prev.questId := by
  unfold prevQuestId prevEvent
  rw [hev]
  show ((arena ++ [ev]).get? i).map (fun p => p.questId) = some prev.questId
  rw [List.get?_append hlt, hgi]
  rfl

theorem closeDelta_new (arena : List SwitchEvent) (ev prev : SwitchEvent)
    (i : Nat) (hev : ev.previous_event = some i)
    (hgi : arena.get? i = some prev) (hlt : i < arena.length) :
    closeDelta (arena ++ [ev]) ev = ev.timestamp - prev.timestamp := by
  unfold closeDelta prevEvent
  rw [hev]
  show (match (arena ++ [ev]).get? i with
    | none => 0
    | some p => ev.timestamp - p.timestamp) = ev.timestamp - prev.timestamp
  rw [List.get?_append hlt, hgi]

theorem prevQuestId_new_none (arena : List SwitchEvent) (ev : SwitchEvent)
    (hev : ev.previous_event = none) :
    prevQuestId (arena ++ [ev]) ev = none := by
  unfold prevQuestId prevEvent
  rw [hev]
  rfl

theorem step_switch (db : CentralizedDatabase) (user_id quest_id : String)
    (now lb : Int) (hinv : DbInv db) (hts : tsBound db lb) (hnow : lb ≤ now) :
    DbInv (add_task_switch_event db user_id quest_id now) ∧
    tsBound (add_task_switch_event db user_id quest_id now) now ∧
    (∀ k q, lookupA db.quests k = some q →
      ∃ q2, lookupA (add_task_switch_event db user_id quest_id now).quests k
          = some q2 ∧ q.total_attention_time ≤ q2.total_attention_time) := by
  cases hu : lookupA db.users user_id with
  | none =>
      rw [add_noop db user_id quest_id now (Or.inl hu)]
      exact ⟨hinv, tsBound_mono db lb now hts hnow,
        fun k q h => ⟨q, h, le_refl _⟩⟩
  | some user =>
  cases hq : lookupA db.quests quest_id with
  | none =>
      rw [add_noop db user_id quest_id now (Or.inr hq)]
      exact ⟨hinv, tsBound_mono db lb now hts hnow,
        fun k q h => ⟨q, h, le_refl _⟩⟩
  | some quest =>
  have hukeys := add_users_keys db user_id quest_id now user quest hu hq
  have hqkeys := add_quests_keys db user_id quest_id now user quest hu hq
  have huchar := add_users_char db user_id quest_id now user quest hu hq
  cases hlast : user.task_events.getLast? with
  | some i =>
      obtain ⟨j0, hj0, _⟩ := get_some_of_getLast_some _ _ hlast
      have himem : i ∈ user.task_events := mem_of_get?_eq_some _ _ _ hj0
      obtain ⟨prev, hgi, hprevu⟩ := hinv.chainValid user_id user hu i himem
      have hilt : i < db.switchArena.length := lt_of_get?_eq_some _ _ _ hgi
      obtain ⟨pq, hpq⟩ :=
        hinv.eventQuestKey prev (mem_of_get?_eq_some _ _ _ hgi)
      have hqchar := add_quests_char db user_id quest_id now user quest
        i prev pq hu hq hlast hgi hpq
      have harena : (add_task_switch_event db user_id quest_id now).switchArena
          = db.switchArena ++
            [⟨db.event_counter, user_id, quest_id, some i, now,
              some (now - prev.timestamp)⟩] := by
        rw [add_switch_arena_char db user_id quest_id now user quest hu hq,
          hlast]
        have hb : (some i).bind (fun j => db.switchArena.get? j) = some prev :=
          hgi
        rw [hb]
        rfl
      refine ⟨⟨?_, ?_, ?_, ?_, ?_, ?_, ?_⟩, ?_, ?_⟩
      · rw [hukeys]; exact hinv.uNodup
      · rw [hqkeys]; exact hinv.qNodup
      · -- chainValid
        intro uid2 u2 h2 j hj
        rw [huchar uid2] at h2
        cases hu2 : lookupA db.users uid2 with
        | none => rw [hu2] at h2; exact absurd h2 (by simp)
        | some u0 =>
            rw [hu2] at h2
            simp only [Option.map_some', Option.some_inj] at h2
            rw [harena]
            by_cases heq : uid2 = user_id
            · subst heq
              rw [if_pos rfl] at h2
              have hu0 : u0 = user := by
                rw [hu] at hu2; exact Option.some_inj.mp hu2.symm
              subst hu0
              subst h2
              rcases List.mem_append.mp hj with hj1 | hj1
              · obtain ⟨e, hge, heu⟩ := hinv.chainValid uid2 u0 hu2 j hj1
                refine ⟨e, ?_, heu⟩
                rw [List.get?_append (lt_of_get?_eq_some _ _ _ hge)]
                exact hge
              · have hjn : j = db.switchArena.length := by simpa using hj1
                subst hjn
                exact ⟨_, List.get?_concat_length _ _, rfl⟩
            · rw [if_neg heq] at h2
              subst h2
              obtain ⟨e, hge, heu⟩ := hinv.chainValid uid2 u0 hu2 j hj
              refine ⟨e, ?_, heu⟩
              rw [List.get?_append (lt_of_get?_eq_some _ _ _ hge)]
              exact hge
      · -- prevValid
        intro e he j hej
        rw [harena] at he ⊢
        rw [List.length_append]
        rcases List.mem_append.mp he with he1 | he1
        · exact lt_of_lt_of_le (hinv.prevValid e he1 j hej) (by simp)
        · have hev : e = ⟨db.event_counter, user_id, quest_id, some i, now,
              some (now - prev.timestamp)⟩ := by simpa using he1
          subst hev
          have hij : i = j := by simpa using hej
          subst hij
          exact lt_of_lt_of_le hilt (by simp)
      · -- eventQuestKey
        intro e he
        rw [harena] at he
        rcases List.mem_append.mp he with he1 | he1
        · obtain ⟨q0, hq0⟩ := hinv.eventQuestKey e he1
          have hl := hqchar e.questId
          rw [hq0] at hl
          exact ⟨_, hl.trans rfl⟩
        · have hev : e = ⟨db.event_counter, user_id, quest_id, some i, now,
              some (now - prev.timestamp)⟩ := by simpa using he1
          subst hev
          have hl := hqchar quest_id
          rw [hq] at hl
          exact ⟨_, hl.trans rfl⟩
      · -- totalsEq
        intro k q2 h2
        rw [hqchar k] at h2
        cases hk0 : lookupA db.quests k with
        | none => rw [hk0] at h2; exact absurd h2 (by simp)
        | some q0 =>
            rw [hk0] at h2
            simp only [Option.map_some', Option.some_inj] at h2
            subst h2
            rw [harena,
              deltaSum_append db.switchArena _ k hinv.prevValid,
              prevQuestId_new db.switchArena _ prev i rfl hgi hilt,
              closeDelta_new db.switchArena _ prev i rfl hgi hilt,
              ← hinv.totalsEq k q0 hk0]
            by_cases hpk : prev.questId = k
            · simp [hpk]
            · simp [hpk]
      · -- lastNotPrev
        intro uid2 u2 h2 j hj e he
        rw [huchar uid2] at h2
        cases hu2 : lookupA db.users uid2 with
        | none => rw [hu2] at h2; exact absurd h2 (by simp)
        | some u0 =>
            rw [hu2] at h2
            simp only [Option.map_some', Option.some_inj] at h2
            rw [harena] at he
            by_cases heq : uid2 = user_id
            · subst heq
              rw [if_pos rfl] at h2
              have hu0 : u0 = user := by
                rw [hu] at hu2; exact Option.some_inj.mp hu2.symm
              subst hu0
              subst h2
              have hjn : j = db.switchArena.length := by
                have : (u0.task_events ++
                    [db.switchArena.length]).getLast? = some j := hj
                rw [List.getLast?_concat] at this
                exact (Option.some_inj.mp this).symm
              subst hjn
              rcases List.mem_append.mp he with he1 | he1
              · intro hcon
                exact lt_irrefl _ (hinv.prevValid e he1 _ hcon)
              · have hev : e = ⟨db.event_counter, uid2, quest_id, some i, now,
                    some (now - prev.timestamp)⟩ := by simpa using he1
                subst hev
                intro hcon
                have hin : i = db.switchArena.length := by simpa using hcon
                rw [hin] at hilt
                exact lt_irrefl _ hilt
            · rw [if_neg heq] at h2
              subst h2
              rcases List.mem_append.mp he with he1 | he1
              · exact hinv.lastNotPrev uid2 u0 hu2 j hj e he1
              · have hev : e = ⟨db.event_counter, user_id, quest_id, some i,
                    now, some (now - prev.timestamp)⟩ := by simpa using he1
                subst hev
                intro hcon
                have hij : i = j := by simpa using hcon
                rw [hij] at hgi
                obtain ⟨j1, hj1, _⟩ := get_some_of_getLast_some _ _ hj
                have hjmem := mem_of_get?_eq_some _ _ _ hj1
                obtain ⟨ej, hgej, heju⟩ := hinv.chainValid uid2 u0 hu2 j hjmem
                rw [hgi] at hgej
                have hejp : prev = ej := Option.some_inj.mp hgej
                rw [← hejp] at heju
                exact heq (heju.symm.trans hprevu)
      · -- tsBound
        intro e he
        rw [harena] at he
        rcases List.mem_append.mp he with he1 | he1
        · exact le_trans (hts e he1) hnow
        · have hev : e = ⟨db.event_counter, user_id, quest_id, some i, now,
              some (now - prev.timestamp)⟩ := by simpa using he1
          subst hev
          exact le_refl now
      · -- totals never decrease
        intro k q h
        have hl := hqchar k
        rw [h] at hl
        refine ⟨_, hl.trans rfl, ?_⟩
        have hple : prev.timestamp ≤ lb :=
          hts prev (mem_of_get?_eq_some _ _ _ hgi)
        show q.total_attention_time ≤ q.total_attention_time +
          (if prev.questId = k then now - prev.timestamp else 0)
        by_cases hpk : prev.questId = k
        · rw [if_pos hpk]
          linarith
        · rw [if_neg hpk]
          simp
  | none =>
      have hqchar := add_quests_char_first db user_id quest_id now user quest
        hu hq hlast
      have harena : (add_task_switch_event db user_id quest_id now).switchArena
          = db.switchArena ++
            [⟨db.event_counter, user_id, quest_id, none, now, none⟩] := by
        rw [add_switch_arena_char db user_id quest_id now user quest hu hq,
          hlast]
        rfl
      refine ⟨⟨?_, ?_, ?_, ?_, ?_, ?_, ?_⟩, ?_, ?_⟩
      · rw [hukeys]; exact hinv.uNodup
      · rw [hqkeys]; exact hinv.qNodup
      · -- chainValid
        intro uid2 u2 h2 j hj
        rw [huchar uid2] at h2
        cases hu2 : lookupA db.users uid2 with
        | none => rw [hu2] at h2; exact absurd h2 (by simp)
        | some u0 =>
            rw [hu2] at h2
            simp only [Option.map_some', Option.some_inj] at h2
            rw [harena]
            by_cases heq : uid2 = user_id
            · subst heq
              rw [if_pos rfl] at h2
              subst h2
              rcases List.mem_append.mp hj with hj1 | hj1
              · obtain ⟨e, hge, heu⟩ := hinv.chainValid uid2 u0 hu2 j hj1
                refine ⟨e, ?_, heu⟩
                rw [List.get?_append (lt_of_get?_eq_some _ _ _ hge)]
                exact hge
              · have hjn : j = db.switchArena.length := by simpa using hj1
                subst hjn
                exact ⟨_, List.get?_concat_length _ _, rfl⟩
            · rw [if_neg heq] at h2
              subst h2
              obtain ⟨e, hge, heu⟩ := hinv.chainValid uid2 u0 hu2 j hj
              refine ⟨e, ?_, heu⟩
              rw [List.get?_append (lt_of_get?_eq_some _ _ _ hge)]
              exact hge
      · -- prevValid
        intro e he j hej
        rw [harena] at he ⊢
        rw [List.length_append]
        rcases List.mem_append.mp he with he1 | he1
        · exact lt_of_lt_of_le (hinv.prevValid e he1 j hej) (by simp)
        · have hev : e = ⟨db.event_counter, user_id, quest_id, none, now,
              none⟩ := by simpa using he1
          subst hev
          exact absurd hej (by simp)
      · -- eventQuestKey
        intro e he
        rw [harena] at he
        rcases List.mem_append.mp he with he1 | he1
        · obtain ⟨q0, hq0⟩ := hinv.eventQuestKey e he1
          have hl := hqchar e.questId
          rw [hq0] at hl
          exact ⟨_, hl.trans rfl⟩
        · have hev : e = ⟨db.event_counter, user_id, quest_id, none, now,
              none⟩ := by simpa using he1
          subst hev
          have hl := hqchar quest_id
          rw [hq] at hl
          exact ⟨_, hl.trans rfl⟩
      · -- totalsEq
        intro k q2 h2
        rw [hqchar k] at h2
        cases hk0 : lookupA db.quests k with
        | none => rw [hk0] at h2; exact absurd h2 (by simp)
        | some q0 =>
            rw [hk0] at h2
            simp only [Option.map_some', Option.some_inj] at h2
            subst h2
            rw [harena,
              deltaSum_append db.switchArena _ k hinv.prevValid,
              prevQuestId_new_none db.switchArena _ rfl,
              ← hinv.totalsEq k q0 hk0]
            simp
      · -- lastNotPrev
        intro uid2 u2 h2 j hj e he
        rw [huchar uid2] at h2
        cases hu2 : lookupA db.users uid2 with
        | none => rw [hu2] at h2; exact absurd h2 (by simp)
        | some u0 =>
            rw [hu2] at h2
            simp only [Option.map_some', Option.some_inj] at h2
            rw [harena] at he
            by_cases heq : uid2 = user_id
            · subst heq
              rw [if_pos rfl] at h2
              subst h2
              have hjn : j = db.switchArena.length := by
                have : (u0.task_events ++
                    [db.switchArena.length]).getLast? = some j := hj
                rw [List.getLast?_concat] at this
                exact (Option.some_inj.mp this).symm
              subst hjn
              rcases List.mem_append.mp he with he1 | he1
              · intro hcon
                exact lt_irrefl _ (hinv.prevValid e he1 _ hcon)
              · have hev : e = ⟨db.event_counter, uid2, quest_id, none, now,
                    none⟩ := by simpa using he1
                subst hev
                simp
            · rw [if_neg heq] at h2
              subst h2
              rcases List.mem_append.mp he with he1 | he1
              · exact hinv.lastNotPrev uid2 u0 hu2 j hj e he1
              · have hev : e = ⟨db.event_counter, user_id, quest_id, none,
                    now, none⟩ := by simpa using he1
                subst hev
                simp
      · -- tsBound
        intro e he
        rw [harena] at he
        rcases List.mem_append.mp he with he1 | he1
        · exact le_trans (hts e he1) hnow
        · have hev : e = ⟨db.event_counter, user_id, quest_id, none, now,
              none⟩ := by simpa using he1
          subst hev
          exact le_refl now
      · -- totals never decrease
        intro k q h
        have hl := hqchar k
        rw [h] at hl
        exact ⟨_, hl.trans rfl, le_refl _⟩

/-- An operation that keeps the switch arena, the key sets, every user's
event chain and every quest's accumulated duration preserves the
invariant. -/
theorem dbinv_of_same_shape (db db2 : CentralizedDatabase)
    (harena : db2.switchArena = db.switchArena)
    (hukeys : db2.users.map Prod.fst = db.users.map Prod.fst)
    (hqkeys : db2.quests.map Prod.fst = db.quests.map Prod.fst)
    (huchain : ∀ k, (lookupA db2.users k).map User.task_events =
      (lookupA db.users k).map User.task_events)
    (hqtot : ∀ k, (lookupA db2.quests k).map Quest.total_attention_time =
      (lookupA db.quests k).map Quest.total_attention_time)
    (hinv : DbInv db) : DbInv db2 := by
  refine ⟨?_, ?_, ?_, ?_, ?_, ?_, ?_⟩
  · rw [hukeys]; exact hinv.uNodup
  · rw [hqkeys]; exact hinv.qNodup
  · intro uid u h2 j hj
    have hc := huchain uid
    rw [h2] at hc
    cases hu0 : lookupA db.users uid with
    | none => rw [hu0] at hc; exact absurd hc (by simp)
    | some u0 =>
        rw [hu0] at hc
        simp only [Option.map_some', Option.some_inj] at hc
        rw [harena]
        exact hinv.chainValid uid u0 hu0 j (hc ▸ hj)
  · intro e he j hej
    rw [harena] at he ⊢
    exact hinv.prevValid e he j hej
  · intro e he
    rw [harena] at he
    obtain ⟨q0, hq0⟩ := hinv.eventQuestKey e he
    have hc := hqtot e.questId
    rw [hq0] at hc
    cases hq2 : lookupA db2.quests e.questId with
    | none => rw [hq2] at hc; exact absurd hc (by simp)
    | some q2 => exact ⟨q2, rfl⟩
  · intro k q h2
    have hc := hqtot k
    rw [h2] at hc
    cases hq0 : lookupA db.quests k with
    | none => rw [hq0] at hc; exact absurd hc (by simp)
    | some q0 =>
        rw [hq0] at hc
        simp only [Option.map_some', Option.some_inj] at hc
        rw [harena, hc]
        exact hinv.totalsEq k q0 hq0
  · intro uid u h2 j hj e he
    have hc := huchain uid
    rw [h2] at hc
    cases hu0 : lookupA db.users uid with
    | none => rw [hu0] at hc; exact absurd hc (by simp)
    | some u0 =>
        rw [hu0] at hc
        simp only [Option.map_some', Option.some_inj] at hc
        rw [harena] at he
        exact hinv.lastNotPrev uid u0 hu0 j (by rw [← hc]; exact hj) e he

theorem tsBound_of_arena (db db2 : CentralizedDatabase) (lb : Int)
    (harena : db2.switchArena = db.switchArena) (hts : tsBound db lb) :
    tsBound db2 lb := by
  intro e he
  rw [harena] at he
  exact hts e he

theorem totals_le_of_eq (db db2 : CentralizedDatabase)
    (hqtot : ∀ k, (lookupA db2.quests k).map Quest.total_attention_time =
      (lookupA db.quests k).map Quest.total_attention_time) :
    ∀ k q, lookupA db.quests k = some q →
      ∃ q2, lookupA db2.quests k = some q2 ∧
        q.total_attention_time ≤ q2.total_attention_time := by
  intro k q h
  have hc := hqtot k
  rw [h] at hc
  cases hq2 : lookupA db2.quests k with
  | none => rw [hq2] at hc; exact absurd hc (by simp)
  | some q2 =>
      rw [hq2] at hc
      simp only [Option.map_some', Option.some_inj] at hc
      exact ⟨q2, rfl, le_of_eq hc.symm⟩

/-! Characterization of `accomplish_quest`. -/

theorem accomplish_noop (db : CentralizedDatabase) (quest_id user_id : String)
    (now : Int)
    (h : lookupA db.quests quest_id = none ∨ lookupA db.users user_id = none) :
    accomplish_quest db quest_id user_id now = db := by
  unfold accomplish_quest
  rcases h with h | h
  · rw [h]
  · rw [h]
    cases lookupA db.quests quest_id <;> rfl

theorem accomplish_frame (db : CentralizedDatabase)
    (quest_id user_id : String) (now : Int) (quest : Quest) (user : User)
    (hq : lookupA db.quests quest_id = some quest)
    (hu : lookupA db.users user_id = some user) :
    (accomplish_quest db quest_id user_id now).switchArena =
      db.switchArena ∧
    (accomplish_quest db quest_id user_id now).accompArena =
      db.accompArena ++ [⟨user_id, quest_id, now⟩] ∧
    (accomplish_quest db quest_id user_id now).events =
      db.events ++ [DbEvent.accomp db.accompArena.length] ∧
    (accomplish_quest db quest_id user_id now).accomplishment_events =
      db.accomplishment_events ++ [db.accompArena.length] ∧
    (accomplish_quest db quest_id user_id now).event_counter =
      db.event_counter := by
  refine ⟨?_, ?_, ?_, ?_, ?_⟩ <;> simp only [accomplish_quest, hq, hu]

theorem accomplish_quests_char (db : CentralizedDatabase)
    (quest_id user_id : String) (now : Int) (quest : Quest) (user : User)
    (hq : lookupA db.quests quest_id = some quest)
    (hu : lookupA db.users user_id = some user) :
    ∀ k, lookupA (accomplish_quest db quest_id user_id now).quests k =
      if k = quest_id then
        some { quest with accomplished_by := some user_id }
      else lookupA db.quests k := by
  intro k
  simp only [accomplish_quest, hq, hu]
  by_cases hk : k = quest_id
  · subst hk
    rw [lookupA_setA_self, if_pos rfl]
  · rw [lookupA_setA_ne _ _ _ hk, if_neg hk]

theorem accomplish_users_char (db : CentralizedDatabase)
    (quest_id user_id : String) (now : Int) (quest : Quest) (user : User)
    (hq : lookupA db.quests quest_id = some quest)
    (hu : lookupA db.users user_id = some user) :
    ∀ k, lookupA (accomplish_quest db quest_id user_id now).users k =
      (lookupA db.users k).map (fun u1 =>
        let u2 := if k = user_id then
          { u1 with accomplished_quests :=
              if quest_id ∈ u1.accomplished_quests then u1.accomplished_quests
              else u1.accomplished_quests ++ [quest_id] }
          else u1
        if k ∈ contributingUsers db quest user_id then
          { u2 with accomplishment_notifications :=
              u2.accomplishment_notifications ++ [db.accompArena.length] }
        else u2) := by
  intro k
  simp only [accomplish_quest, hq, hu]
  rw [lookupA_mapValsA]
  by_cases hk : k = user_id
  · subst hk
    rw [lookupA_setA_self, hu]
    by_cases hm : k ∈ contributingUsers db quest k <;> simp [hm]
  · rw [lookupA_setA_ne _ _ _ hk]
    cases lookupA db.users k with
    | none => rfl
    | some u0 =>
        by_cases hm : k ∈ contributingUsers db quest user_id <;> simp [hm, hk]

theorem step_accomplish (db : CentralizedDatabase)
    (quest_id user_id : String) (now lb : Int)
    (hinv : DbInv db) (hts : tsBound db lb) :
    DbInv (accomplish_quest db quest_id user_id now) ∧
    tsBound (accomplish_quest db quest_id user_id now) lb ∧
    (∀ k q, lookupA db.quests k = some q →
      ∃ q2, lookupA (accomplish_quest db quest_id user_id now).quests k
          = some q2 ∧ q.total_attention_time ≤ q2.total_attention_time) := by
  cases hq : lookupA db.quests quest_id with
  | none =>
      rw [accomplish_noop db quest_id user_id now (Or.inl hq)]
      exact ⟨hinv, hts, fun k q h => ⟨q, h, le_refl _⟩⟩
  | some quest =>
  cases hu : lookupA db.users user_id with
  | none =>
      rw [accomplish_noop db quest_id user_id now (Or.inr hu)]
      exact ⟨hinv, hts, fun k q h => ⟨q, h, le_refl _⟩⟩
  | some user =>
      have harena := (accomplish_frame db quest_id user_id now quest user
        hq hu).1
      have huchar := accomplish_users_char db quest_id user_id now quest user
        hq hu
      have hqchar := accomplish_quests_char db quest_id user_id now quest user
        hq hu
      have hukeys : (accomplish_quest db quest_id user_id now).users.map
          Prod.fst = db.users.map Prod.fst := by
        have hmem : user_id ∈ db.users.map Prod.fst :=
          List.mem_map.mpr ⟨_, mem_of_lookupA _ _ _ hu, rfl⟩
        simp only [accomplish_quest, hq, hu]
        rw [keys_mapValsA, keys_setA_of_mem _ _ _ hmem]
      have hqkeys : (accomplish_quest db quest_id user_id now).quests.map
          Prod.fst = db.quests.map Prod.fst := by
        have hmem : quest_id ∈ db.quests.map Prod.fst :=
          List.mem_map.mpr ⟨_, mem_of_lookupA _ _ _ hq, rfl⟩
        simp only [accomplish_quest, hq, hu]
        rw [keys_setA_of_mem _ _ _ hmem]
      have huchain : ∀ k,
          (lookupA (accomplish_quest db quest_id user_id now).users k).map
            User.task_events = (lookupA db.users k).map User.task_events := by
        intro k
        rw [huchar k]
        cases lookupA db.users k with
        | none => rfl
        | some u0 =>
            by_cases h1 : k = user_id
            · subst h1
              by_cases h2 : k ∈ contributingUsers db quest k <;> simp [h2]
            · by_cases h2 : k ∈ contributingUsers db quest user_id <;>
                simp [h1, h2]
      have hqtot : ∀ k,
          (lookupA (accomplish_quest db quest_id user_id now).quests k).map
            Quest.total_attention_time =
          (lookupA db.quests k).map Quest.total_attention_time := by
        intro k
        rw [hqchar k]
        by_cases hk : k = quest_id
        · subst hk
          rw [if_pos rfl, hq]
          rfl
        · rw [if_neg hk]
      exact ⟨dbinv_of_same_shape db _ harena hukeys hqkeys huchain hqtot hinv,
        tsBound_of_arena db _ lb harena hts,
        totals_le_of_eq db _ hqtot⟩

/-! Characterization of `archive_quest` and `unarchive_quest`. -/

theorem archive_noop (db : CentralizedDatabase) (user_id quest_id : String)
    (h : lookupA db.users user_id = none ∨ lookupA db.quests quest_id = none) :
    archive_quest db user_id quest_id = db := by
  unfold archive_quest
  rcases h with h | h
  · rw [h]
  · rw [h]
    cases lookupA db.users user_id <;> simp

theorem archive_frame (db : CentralizedDatabase)
    (user_id quest_id : String) :
    (archive_quest db user_id quest_id).quests = db.quests ∧
    (archive_quest db user_id quest_id).switchArena = db.switchArena ∧
    (archive_quest db user_id quest_id).accompArena = db.accompArena ∧
    (archive_quest db user_id quest_id).events = db.events ∧
    (archive_quest db user_id quest_id).accomplishment_events =
      db.accomplishment_events ∧
    (archive_quest db user_id quest_id).event_counter = db.event_counter := by
  unfold archive_quest
  cases lookupA db.users user_id with
  | none => exact ⟨rfl, rfl, rfl, rfl, rfl, rfl⟩
  | some user =>
      by_cases h : (lookupA db.quests quest_id).isSome <;>
        simp [h] <;> exact ⟨rfl, rfl, rfl, rfl, rfl, rfl⟩

theorem unarchive_frame (db : CentralizedDatabase)
    (user_id quest_id : String) :
    (unarchive_quest db user_id quest_id).quests = db.quests ∧
    (unarchive_quest db user_id quest_id).switchArena = db.switchArena ∧
    (unarchive_quest db user_id quest_id).accompArena = db.accompArena ∧
    (unarchive_quest db user_id quest_id).events = db.events ∧
    (unarchive_quest db user_id quest_id).accomplishment_events =
      db.accomplishment_events ∧
    (unarchive_quest db user_id quest_id).event_counter =
      db.event_counter := by
  unfold unarchive_quest
  cases lookupA db.users user_id with
  | none => exact ⟨rfl, rfl, rfl, rfl, rfl, rfl⟩
  | some user =>
      by_cases h : quest_id ∈ user.archived_quests <;>
        simp [h] <;> exact ⟨rfl, rfl, rfl, rfl, rfl, rfl⟩

theorem archive_users_char (db : CentralizedDatabase)
    (user_id quest_id : String) (user : User)
    (hu : lookupA db.users user_id = some user) :
    ∀ k, lookupA (archive_quest db user_id quest_id).users k =
      if k = user_id then
        (if (lookupA db.quests quest_id).isSome then
          some { user with
            archived_quests := insert quest_id user.archived_quests }
        else some user)
      else lookupA db.users k := by
  intro k
  simp only [archive_quest, hu]
  by_cases hqk : (lookupA db.quests quest_id).isSome
  · rw [if_pos hqk]
    by_cases hk : k = user_id
    · subst hk
      simp [lookupA_setA_self, hqk]
    · simp only [lookupA_setA_ne _ _ _ hk, if_neg hk]
  · rw [if_neg hqk]
    by_cases hk : k = user_id
    · subst hk
      simp only [if_pos rfl, if_neg hqk]
      exact hu
    · rw [if_neg hk]

theorem unarchive_users_char (db : CentralizedDatabase)
    (user_id quest_id : String) (user : User)
    (hu : lookupA db.users user_id = some user) :
    ∀ k, lookupA (unarchive_quest db user_id quest_id).users k =
      if k = user_id then
        (if quest_id ∈ user.archived_quests then
          some { user with
            archived_quests := user.archived_quests.erase quest_id }
        else some user)
      else lookupA db.users k := by
  intro k
  simp only [unarchive_quest, hu]
  by_cases hqk : quest_id ∈ user.archived_quests
  · rw [if_pos hqk]
    by_cases hk : k = user_id
    · subst hk
      simp [lookupA_setA_self, hqk]
    · simp only [lookupA_setA_ne _ _ _ hk, if_neg hk]
  · rw [if_neg hqk]
    by_cases hk : k = user_id
    · subst hk
      simp only [if_pos rfl, if_neg hqk]
      exact hu
    · rw [if_neg hk]

theorem step_archive (db : CentralizedDatabase) (user_id quest_id : String)
    (lb : Int) (hinv : DbInv db) (hts : tsBound db lb) :
    DbInv (archive_quest db user_id quest_id) ∧
    tsBound (archive_quest db user_id quest_id) lb ∧
    (∀ k q, lookupA db.quests k = some q →
      ∃ q2, lookupA (archive_quest db user_id quest_id).quests k = some q2 ∧
        q.total_attention_time ≤ q2.total_attention_time) := by
  obtain ⟨hfq, hfa, _, _, _, _⟩ := archive_frame db user_id quest_id
  have hqtot : ∀ k,
      (lookupA (archive_quest db user_id quest_id).quests k).map
        Quest.total_attention_time =
      (lookupA db.quests k).map Quest.total_attention_time := by
    intro k; rw [hfq]
  cases hu : lookupA db.users user_id with
  | none =>
      rw [archive_noop db user_id quest_id (Or.inl hu)]
      exact ⟨hinv, hts, fun k q h => ⟨q, h, le_refl _⟩⟩
  | some user =>
      have huchar := archive_users_char db user_id quest_id user hu
      have hukeys : (archive_quest db user_id quest_id).users.map Prod.fst =
          db.users.map Prod.fst := by
        have hmem : user_id ∈ db.users.map Prod.fst :=
          List.mem_map.mpr ⟨_, mem_of_lookupA _ _ _ hu, rfl⟩
        simp only [archive_quest, hu]
        by_cases hqk : (lookupA db.quests quest_id).isSome <;> simp [hqk] <;>
          rw [keys_setA_of_mem _ _ _ hmem]
      have huchain : ∀ k,
          (lookupA (archive_quest db user_id quest_id).users k).map
            User.task_events = (lookupA db.users k).map User.task_events := by
        intro k
        rw [huchar k]
        by_cases hk : k = user_id
        · subst hk
          rw [if_pos rfl, hu]
          by_cases hqk : (lookupA db.quests quest_id).isSome <;> simp [hqk]
        · rw [if_neg hk]
      exact ⟨dbinv_of_same_shape db _ hfa hukeys (by rw [hfq]) huchain hqtot
          hinv,
        tsBound_of_arena db _ lb hfa hts,
        totals_le_of_eq db _ hqtot⟩

theorem step_unarchive (db : CentralizedDatabase) (user_id quest_id : String)
    (lb : Int) (hinv : DbInv db) (hts : tsBound db lb) :
    DbInv (unarchive_quest db user_id quest_id) ∧
    tsBound (unarchive_quest db user_id quest_id) lb ∧
    (∀ k q, lookupA db.quests k = some q →
      ∃ q2, lookupA (unarchive_quest db user_id quest_id).quests k = some q2 ∧
        q.total_attention_time ≤ q2.total_attention_time) := by
  obtain ⟨hfq, hfa, _, _, _, _⟩ := unarchive_frame db user_id quest_id
  have hqtot : ∀ k,
      (lookupA (unarchive_quest db user_id quest_id).quests k).map
        Quest.total_attention_time =
      (lookupA db.quests k).map Quest.total_attention_time := by
    intro k; rw [hfq]
  cases hu : lookupA db.users user_id with
  | none =>
      have hdb : unarchive_quest db user_id quest_id = db := by
        unfold unarchive_quest
        rw [hu]
      rw [hdb]
      exact ⟨hinv, hts, fun k q h => ⟨q, h, le_refl _⟩⟩
  | some user =>
      have huchar := unarchive_users_char db user_id quest_id user hu
      have hukeys : (unarchive_quest db user_id quest_id).users.map Prod.fst =
          db.users.map Prod.fst := by
        have hmem : user_id ∈ db.users.map Prod.fst :=
          List.mem_map.mpr ⟨_, mem_of_lookupA _ _ _ hu, rfl⟩
        simp only [unarchive_quest, hu]
        by_cases hqk : quest_id ∈ user.archived_quests <;> simp [hqk] <;>
          rw [keys_setA_of_mem _ _ _ hmem]
      have huchain : ∀ k,
          (lookupA (unarchive_quest db user_id quest_id).users k).map
            User.task_events = (lookupA db.users k).map User.task_events := by
        intro k
        rw [huchar k]
        by_cases hk : k = user_id
        · subst hk
          rw [if_pos rfl, hu]
          by_cases hqk : quest_id ∈ user.archived_quests <;> simp [hqk]
        · rw [if_neg hk]
      exact ⟨dbinv_of_same_shape db _ hfa hukeys (by rw [hfq]) huchain hqtot
          hinv,
        tsBound_of_arena db _ lb hfa hts,
        totals_le_of_eq db _ hqtot⟩

/-! Characterization of `assign_quest`. -/

theorem assign_noop_missing (db : CentralizedDatabase)
    (quest_id assign_user_id assigning_user_id : String) (now : Int)
    (h : lookupA db.quests quest_id = none ∨
      lookupA db.users assign_user_id = none ∨
      lookupA db.users assigning_user_id = none) :
    assign_quest db quest_id assign_user_id assigning_user_id now = db := by
  unfold assign_quest
  rcases h with h | h | h
  · rw [h]
  · rw [h]
    cases lookupA db.quests quest_id <;> rfl
  · rw [h]
    cases lookupA db.quests quest_id <;>
      cases lookupA db.users assign_user_id <;> rfl

theorem assign_noop_guard (db : CentralizedDatabase)
    (quest_id assign_user_id assigning_user_id : String) (now : Int)
    (quest : Quest) (hq : lookupA db.quests quest_id = some quest)
    (hguard : quest.accomplished_by ≠ some assigning_user_id) :
    assign_quest db quest_id assign_user_id assigning_user_id now = db := by
  unfold assign_quest
  rw [hq]
  cases lookupA db.users assign_user_id with
  | none => rfl
  | some toU =>
      cases lookupA db.users assigning_user_id with
      | none => rfl
      | some fromU => simp only [if_neg hguard]

theorem assign_success_char (db : CentralizedDatabase)
    (quest_id assign_user_id assigning_user_id : String) (now : Int)
    (quest : Quest) (toU fromU : User)
    (hq : lookupA db.quests quest_id = some quest)
    (hto : lookupA db.users assign_user_id = some toU)
    (hfrom : lookupA db.users assigning_user_id = some fromU)
    (hguard : quest.accomplished_by = some assigning_user_id) :
    (∀ k, lookupA (assign_quest db quest_id assign_user_id
        assigning_user_id now).users k =
      (if k = assign_user_id then
        (if assign_user_id = assigning_user_id then
          some { fromU with
            accomplished_quests :=
              fromU.accomplished_quests.erase quest_id ++ [quest_id]
            accomplishment_notifications :=
              fromU.accomplishment_notifications ++ [db.accompArena.length] }
        else
          some { toU with
            accomplished_quests := toU.accomplished_quests ++ [quest_id]
            accomplishment_notifications :=
              toU.accomplishment_notifications ++ [db.accompArena.length] })
      else if k = assigning_user_id then
        some { fromU with
          accomplished_quests := fromU.accomplished_quests.erase quest_id }
      else lookupA db.users k)) ∧
    (∀ k, lookupA (assign_quest db quest_id assign_user_id
        assigning_user_id now).quests k =
      (if k = quest_id then
        some { quest with accomplished_by := some assign_user_id }
      else lookupA db.quests k)) ∧
    (assign_quest db quest_id assign_user_id assigning_user_id
      now).switchArena = db.switchArena ∧
    (assign_quest db quest_id assign_user_id assigning_user_id
      now).accompArena = db.accompArena ++ [⟨assign_user_id, quest_id, now⟩] ∧
    (assign_quest db quest_id assign_user_id assigning_user_id now).events =
      db.events ++ [DbEvent.accomp db.accompArena.length] ∧
    (assign_quest db quest_id assign_user_id assigning_user_id
      now).accomplishment_events =
      db.accomplishment_events ++ [db.accompArena.length] ∧
    (assign_quest db quest_id assign_user_id assigning_user_id
      now).event_counter = db.event_counter := by
  by_cases htf : assign_user_id = assigning_user_id
  · subst htf
    have hfu : fromU = toU := by
      rw [hto] at hfrom
      exact Option.some_inj.mp hfrom.symm
    subst hfu
    have hl1 : lookupA (setA db.users assign_user_id
        { fromU with accomplished_quests :=
            fromU.accomplished_quests.erase quest_id }) assign_user_id =
        some { fromU with accomplished_quests :=
            fromU.accomplished_quests.erase quest_id } :=
      lookupA_setA_self _ _ _
    refine ⟨?_, ?_, ?_, ?_, ?_, ?_, ?_⟩ <;>
      simp only [assign_quest, hq, hto, hguard, eq_self_iff_true, if_true,
        hl1]
    · intro k
      by_cases hk : k = assign_user_id
      · subst hk
        rw [lookupA_setA_self, if_pos rfl]
      · rw [lookupA_setA_ne _ _ _ hk, lookupA_setA_ne _ _ _ hk,
          if_neg hk, if_neg hk]
    · intro k
      by_cases hk : k = quest_id
      · subst hk
        rw [lookupA_setA_self, if_pos rfl]
      · rw [lookupA_setA_ne _ _ _ hk, if_neg hk]
  · have hl1 : lookupA (setA db.users assigning_user_id
        { fromU with accomplished_quests :=
            fromU.accomplished_quests.erase quest_id }) assign_user_id =
        some toU := by
      rw [lookupA_setA_ne _ _ _ htf]
      exact hto
    refine ⟨?_, ?_, ?_, ?_, ?_, ?_, ?_⟩ <;>
      simp only [assign_quest, hq, hto, hfrom, hguard, eq_self_iff_true,
        if_true, hl1]
    · intro k
      by_cases hk : k = assign_user_id
      · subst hk
        rw [lookupA_setA_self, if_pos rfl, if_neg htf]
      · rw [lookupA_setA_ne _ _ _ hk, if_neg hk]
        by_cases hk2 : k = assigning_user_id
        · subst hk2
          rw [lookupA_setA_self, if_pos rfl]
        · rw [lookupA_setA_ne _ _ _ hk2, if_neg hk2]
    · intro k
      by_cases hk : k = quest_id
      · subst hk
        rw [lookupA_setA_self, if_pos rfl]
      · rw [lookupA_setA_ne _ _ _ hk, if_neg hk]

theorem assign_users_keys (db : CentralizedDatabase)
    (quest_id assign_user_id assigning_user_id : String) (now : Int)
    (quest : Quest) (toU fromU : User)
    (hq : lookupA db.quests quest_id = some quest)
    (hto : lookupA db.users assign_user_id = some toU)
    (hfrom : lookupA db.users assigning_user_id = some fromU)
    (hguard : quest.accomplished_by = some assigning_user_id) :
    (assign_quest db quest_id assign_user_id assigning_user_id
      now).users.map Prod.fst = db.users.map Prod.fst ∧
    (assign_quest db quest_id assign_user_id assigning_user_id
      now).quests.map Prod.fst = db.quests.map Prod.fst := by
  have hfmem : assigning_user_id ∈ db.users.map Prod.fst :=
    List.mem_map.mpr ⟨_, mem_of_lookupA _ _ _ hfrom, rfl⟩
  have htmem : assign_user_id ∈ db.users.map Prod.fst :=
    List.mem_map.mpr ⟨_, mem_of_lookupA _ _ _ hto, rfl⟩
  have hqmem : quest_id ∈ db.quests.map Prod.fst :=
    List.mem_map.mpr ⟨_, mem_of_lookupA _ _ _ hq, rfl⟩
  by_cases htf : assign_user_id = assigning_user_id
  · subst htf
    have hfu : fromU = toU := by
      rw [hto] at hfrom
      exact Option.some_inj.mp hfrom.symm
    subst hfu
    have hl1 : lookupA (setA db.users assign_user_id
        { fromU with accomplished_quests :=
            fromU.accomplished_quests.erase quest_id }) assign_user_id =
        some { fromU with accomplished_quests :=
            fromU.accomplished_quests.erase quest_id } :=
      lookupA_setA_self _ _ _
    constructor <;>
      simp only [assign_quest, hq, hto, hguard, eq_self_iff_true, if_true,
        hl1]
    · rw [keys_setA_of_mem _ _ _
        (by rw [keys_setA_of_mem _ _ _ htmem]; exact htmem),
        keys_setA_of_mem _ _ _ htmem]
    · rw [keys_setA_of_mem _ _ _ hqmem]
  · have hl1 : lookupA (setA db.users assigning_user_id
        { fromU with accomplished_quests :=
            fromU.accomplished_quests.erase quest_id }) assign_user_id =
        some toU := by
      rw [lookupA_setA_ne _ _ _ htf]
      exact hto
    constructor <;>
      simp only [assign_quest, hq, hto, hfrom, hguard, eq_self_iff_true,
        if_true, hl1]
    · rw [keys_setA_of_mem _ _ _
        (by rw [keys_setA_of_mem _ _ _ hfmem]; exact htmem),
        keys_setA_of_mem _ _ _ hfmem]
    · rw [keys_setA_of_mem _ _ _ hqmem]

theorem step_assign (db : CentralizedDatabase)
    (quest_id assign_user_id assigning_user_id : String) (now lb : Int)
    (hinv : DbInv db) (hts : tsBound db lb) :
    DbInv (assign_quest db quest_id assign_user_id assigning_user_id now) ∧
    tsBound (assign_quest db quest_id assign_user_id assigning_user_id now)
      lb ∧
    (∀ k q, lookupA db.quests k = some q →
      ∃ q2, lookupA (assign_quest db quest_id assign_user_id
          assigning_user_id now).quests k = some q2 ∧
        q.total_attention_time ≤ q2.total_attention_time) := by
  cases hq : lookupA db.quests quest_id with
  | none =>
      rw [assign_noop_missing db quest_id assign_user_id assigning_user_id
        now (Or.inl hq)]
      exact ⟨hinv, hts, fun k q h => ⟨q, h, le_refl _⟩⟩
  | some quest =>
  cases hto : lookupA db.users assign_user_id with
  | none =>
      rw [assign_noop_missing db quest_id assign_user_id assigning_user_id
        now (Or.inr (Or.inl hto))]
      exact ⟨hinv, hts, fun k q h => ⟨q, h, le_refl _⟩⟩
  | some toU =>
  cases hfrom : lookupA db.users assigning_user_id with
  | none =>
      rw [assign_noop_missing db quest_id assign_user_id assigning_user_id
        now (Or.inr (Or.inr hfrom))]
      exact ⟨hinv, hts, fun k q h => ⟨q, h, le_refl _⟩⟩
  | some fromU =>
  by_cases hguard : quest.accomplished_by = some assigning_user_id
  · obtain ⟨hucha, hqcha, harena, _, _, _, _⟩ :=
      assign_success_char db quest_id assign_user_id assigning_user_id now
        quest toU fromU hq hto hfrom hguard
    obtain ⟨hukeys, hqkeys⟩ :=
      assign_users_keys db quest_id assign_user_id assigning_user_id now
        quest toU fromU hq hto hfrom hguard
    have huchain : ∀ k,
        (lookupA (assign_quest db quest_id assign_user_id assigning_user_id
          now).users k).map User.task_events =
        (lookupA db.users k).map User.task_events := by
      intro k
      rw [hucha k]
      by_cases hk : k = assign_user_id
      · subst hk
        rw [if_pos rfl, hto]
        by_cases htf : k = assigning_user_id
        · subst htf
          have hfu : fromU = toU := by
            rw [hto] at hfrom
            exact Option.some_inj.mp hfrom.symm
          subst hfu
          simp
        · rw [if_neg htf]
          rfl
      · rw [if_neg hk]
        by_cases hk2 : k = assigning_user_id
        · subst hk2
          rw [if_pos rfl, hfrom]
          rfl
        · rw [if_neg hk2]
    have hqtot : ∀ k,
        (lookupA (assign_quest db quest_id assign_user_id assigning_user_id
          now).quests k).map Quest.total_attention_time =
        (lookupA db.quests k).map Quest.total_attention_time := by
      intro k
      rw [hqcha k]
      by_cases hk : k = quest_id
      · subst hk
        rw [if_pos rfl, hq]
        rfl
      · rw [if_neg hk]
    exact ⟨dbinv_of_same_shape db _ harena hukeys hqkeys huchain hqtot hinv,
      tsBound_of_arena db _ lb harena hts,
      totals_le_of_eq db _ hqtot⟩
  · rw [assign_noop_guard db quest_id assign_user_id assigning_user_id now
      quest hq hguard]
    exact ⟨hinv, hts, fun k q h => ⟨q, h, le_refl _⟩⟩

/-! Characterization of `create_quest`. -/

theorem mem_of_prevEvent (arena : List SwitchEvent) (e p : SwitchEvent)
    (h : prevEvent arena e = some p) : p ∈ arena := by
  unfold prevEvent at h
  cases hp : e.previous_event with
  | none => rw [hp] at h; exact absurd h (by simp)
  | some i =>
      rw [hp] at h
      exact mem_of_get?_eq_some arena i p h

theorem deltaSum_fresh (arena : List SwitchEvent)
    (quests : List (String × Quest)) (qid : String)
    (hkeys : ∀ e ∈ arena, ∃ q, lookupA quests e.questId = some q)
    (hnone : lookupA quests qid = none) : deltaSum arena qid = 0 := by
  unfold deltaSum
  have hz : ∀ e ∈ arena,
      (if prevQuestId arena e = some qid then closeDelta arena e else 0)
        = (fun _ => (0 : Int)) e := by
    intro e he
    cases hp : prevQuestId arena e with
    | none => simp
    | some s =>
        by_cases hs : s = qid
        · subst hs
          unfold prevQuestId at hp
          cases hpe : prevEvent arena e with
          | none => rw [hpe] at hp; exact absurd hp (by simp)
          | some p =>
              rw [hpe] at hp
              simp only [Option.map_some', Option.some_inj] at hp
              obtain ⟨q0, hq0⟩ := hkeys p (mem_of_prevEvent arena e p hpe)
              rw [hp, hnone] at hq0
              exact absurd hq0 (by simp)
        · simp [hs]
  rw [List.map_congr_left hz, sum_map_const_zero]

theorem step_create (db : CentralizedDatabase)
    (quest_id creator_id : String) (lb : Int)
    (hinv : DbInv db) (hts : tsBound db lb) :
    DbInv (create_quest db quest_id creator_id) ∧
    tsBound (create_quest db quest_id creator_id) lb ∧
    (∀ k q, lookupA db.quests k = some q →
      ∃ q2, lookupA (create_quest db quest_id creator_id).quests k = some q2 ∧
        q.total_attention_time ≤ q2.total_attention_time) := by
  simp only [create_quest]
  generalize (if quest_id.startsWith "quest_" then quest_id
    else "quest_" ++ quest_id) = qid2
  cases hq : lookupA db.quests qid2 with
  | some q0 => exact ⟨hinv, hts, fun k q h => ⟨q, h, le_refl _⟩⟩
  | none =>
  cases hc : lookupA db.users creator_id with
  | none => exact ⟨hinv, hts, fun k q h => ⟨q, h, le_refl _⟩⟩
  | some creator =>
      have hnotmem : qid2 ∉ db.quests.map Prod.fst :=
        (lookupA_eq_none_iff _ _).mp hq
      have hqchar : ∀ k,
          lookupA (setA db.quests qid2 (newQuest qid2 (some creator_id))) k =
          if k = qid2 then some (newQuest qid2 (some creator_id))
          else lookupA db.quests k := by
        intro k
        by_cases hk : k = qid2
        · subst hk
          rw [lookupA_setA_self, if_pos rfl]
        · rw [lookupA_setA_ne _ _ _ hk, if_neg hk]
      refine ⟨⟨hinv.uNodup, ?_, hinv.chainValid, hinv.prevValid, ?_, ?_,
        hinv.lastNotPrev⟩, hts, ?_⟩
      · show ((setA db.quests qid2 _).map Prod.fst).Nodup
        rw [keys_setA_of_not_mem _ _ _ hnotmem]
        rw [List.nodup_append]
        refine ⟨hinv.qNodup, List.nodup_singleton _, ?_⟩
        intro a ha hb
        simp at hb
        subst hb
        exact hnotmem ha
      · intro e he
        obtain ⟨q0, hq0⟩ := hinv.eventQuestKey e he
        refine ⟨q0, ?_⟩
        show lookupA (setA db.quests qid2 _) e.questId = some q0
        rw [hqchar e.questId]
        have hne : e.questId ≠ qid2 := by
          intro hcon
          rw [hcon, hq] at hq0
          exact absurd hq0 (by simp)
        rw [if_neg hne]
        exact hq0
      · intro k q h2
        rw [hqchar k] at h2
        by_cases hk : k = qid2
        · rw [if_pos hk] at h2
          have hq2 : q = newQuest qid2 (some creator_id) :=
            Option.some_inj.mp h2.symm
          rw [hq2, hk]
          show (0 : Int) = deltaSum db.switchArena qid2
          rw [deltaSum_fresh db.switchArena db.quests qid2
            hinv.eventQuestKey hq]
        · rw [if_neg hk] at h2
          exact hinv.totalsEq k q h2
      · intro k q h
        refine ⟨q, ?_, le_refl _⟩
        show lookupA (setA db.quests qid2 _) k = some q
        rw [hqchar k]
        have hne : k ≠ qid2 := by
          intro hcon
          rw [hcon, hq] at h
          exact absurd h (by simp)
        rw [if_neg hne]
        exact h

theorem step_all (db : CentralizedDatabase) (op : Op) (lb : Int)
    (hinv : DbInv db) (hts : tsBound db lb)
    (hok : ∀ t, opTime op = some t → lb ≤ t) :
    DbInv (applyOp db op) ∧
    tsBound (applyOp db op)
      (match opTime op with | some t => t | none => lb) ∧
    (∀ k q, lookupA db.quests k = some q →
      ∃ q2, lookupA (applyOp db op).quests k = some q2 ∧
        q.total_attention_time ≤ q2.total_attention_time) := by
  cases op with
  | switch u q t => exact step_switch db u q t lb hinv hts (hok t rfl)
  | accomplish q u t => exact step_accomplish db q u t lb hinv hts
  | assign q a b t => exact step_assign db q a b t lb hinv hts
  | create q c => exact step_create db q c lb hinv hts
  | archive u q => exact step_archive db u q lb hinv hts
  | unarchive u q => exact step_unarchive db u q lb hinv hts

theorem reach_aux : ∀ (ops : List Op) (db : CentralizedDatabase) (lb : Int),
    DbInv db → tsBound db lb → timesOkB lb ops = true →
    DbInv (applyOps db ops) ∧
    tsBound (applyOps db ops) (endTime lb ops) ∧
    (∀ k q, lookupA db.quests k = some q →
      ∃ q2, lookupA (applyOps db ops).quests k = some q2 ∧
        q.total_attention_time ≤ q2.total_attention_time)
  | [], db, lb, hinv, hts, _ =>
      ⟨hinv, hts, fun k q h => ⟨q, h, le_refl _⟩⟩
  | op :: rest, db, lb, hinv, hts, hok => by
      have happ : applyOps db (op :: rest) = applyOps (applyOp db op) rest :=
        rfl
      rw [happ]
      cases hop : opTime op with
      | some t =>
          simp only [timesOkB, hop, Bool.and_eq_true, decide_eq_true_eq]
            at hok
          obtain ⟨hinv2, hts2, hmono1⟩ := step_all db op lb hinv hts
            (fun t2 ht2 => by
              rw [hop] at ht2
              exact (Option.some_inj.mp ht2) ▸ hok.1)
          rw [hop] at hts2
          obtain ⟨hinv3, hts3, hmono2⟩ :=
            reach_aux rest (applyOp db op) t hinv2 hts2 hok.2
          refine ⟨hinv3, ?_, ?_⟩
          · show tsBound _ (endTime lb (op :: rest))
            simp only [endTime, hop]
            exact hts3
          · intro k q h
            obtain ⟨q1, hq1, hle1⟩ := hmono1 k q h
            obtain ⟨q2, hq2, hle2⟩ := hmono2 k q1 hq1
            exact ⟨q2, hq2, le_trans hle1 hle2⟩
      | none =>
          simp only [timesOkB, hop] at hok
          obtain ⟨hinv2, hts2, hmono1⟩ := step_all db op lb hinv hts
            (fun t2 ht2 => by rw [hop] at ht2; exact absurd ht2 (by simp))
          rw [hop] at hts2
          obtain ⟨hinv3, hts3, hmono2⟩ :=
            reach_aux rest (applyOp db op) lb hinv2 hts2 hok
          refine ⟨hinv3, ?_, ?_⟩
          · show tsBound _ (endTime lb (op :: rest))
            simp only [endTime, hop]
            exact hts3
          · intro k q h
            obtain ⟨q1, hq1, hle1⟩ := hmono1 k q h
            obtain ⟨q2, hq2, hle2⟩ := hmono2 k q1 hq1
            exact ⟨q2, hq2, le_trans hle1 hle2⟩

theorem timesOkB_append (l1 : List Op) : ∀ (lb : Int) (l2 : List Op),
    timesOkB lb (l1 ++ l2) =
      (timesOkB lb l1 && timesOkB (endTime lb l1) l2) := by
  induction l1 with
  | nil => intro lb l2; simp [timesOkB, endTime]
  | cons op rest ih =>
      intro lb l2
      cases hop : opTime op with
      | some t =>
          simp only [List.cons_append, timesOkB, hop, endTime,
            List.append_eq, ih, Bool.and_assoc]
      | none =>
          simp only [List.cons_append, timesOkB, hop, endTime,
            List.append_eq, ih]

theorem applyOps_append (db : CentralizedDatabase) (l1 l2 : List Op) :
    applyOps db (l1 ++ l2) = applyOps (applyOps db l1) l2 :=
  List.foldl_append _ _ _ _

/-! Bridging: under the invariant, the sum of all quest totals equals the
closed-interval sum. -/

theorem sum_ite_key_zero {α : Type} (s : String) (c : Int) :
    ∀ l : List (String × α), s ∉ l.map Prod.fst →
      (l.map (fun p => if s = p.1 then c else 0)).sum = 0
  | [], _ => rfl
  | (k1, v) :: rest, h => by
      have h1 : s ≠ k1 := by
        intro h2; exact h (by simp [h2])
      have h2 : s ∉ rest.map Prod.fst := by
        intro h3; exact h (by simp [h3])
      simp only [List.map_cons, List.sum_cons, if_neg h1,
        sum_ite_key_zero s c rest h2, zero_add]

theorem sum_ite_key {α : Type} (s : String) (c : Int) :
    ∀ l : List (String × α), (l.map Prod.fst).Nodup →
      s ∈ l.map Prod.fst →
      (l.map (fun p => if s = p.1 then c else 0)).sum = c
  | [], _, hmem => by simp at hmem
  | (k1, v) :: rest, hnd, hmem => by
      by_cases h1 : s = k1
      · subst h1
        have h2 : s ∉ rest.map Prod.fst := by
          simp at hnd
          intro h3
          simp at h3
          obtain ⟨v2, hv2⟩ := h3
          exact hnd.1 v2 hv2
        simp [sum_ite_key_zero s c rest h2]
      · have h2 : s ∈ rest.map Prod.fst := by
          simp at hmem
          rcases hmem with hmem | hmem
          · exact absurd hmem h1
          · simpa using hmem
        have hnd2 : (rest.map Prod.fst).Nodup := by
          simp at hnd; exact hnd.2
        simp only [List.map_cons, List.sum_cons, if_neg h1,
          sum_ite_key s c rest hnd2 h2, zero_add]

theorem sum_swap_list {α β : Type} (f : α → β → Int) :
    ∀ (l1 : List α) (l2 : List β),
      (l1.map (fun a => (l2.map (fun b => f a b)).sum)).sum =
      (l2.map (fun b => (l1.map (fun a => f a b)).sum)).sum
  | [], l2 => by
      have h : (l2.map (fun b => ((([] : List α).map fun a => f a b)).sum)) =
          l2.map (fun _ => (0 : Int)) :=
        List.map_congr_left (fun b _ => by simp)
      rw [h, sum_map_const_zero]
      simp
  | a :: rest, l2 => by
      have h : (l2.map (fun b => (((a :: rest).map fun a2 => f a2 b)).sum)) =
          l2.map (fun b => f a b + ((rest.map fun a2 => f a2 b)).sum) :=
        List.map_congr_left (fun b _ => by simp)
      rw [h, sum_map_add_eq]
      simp only [List.map_cons, List.sum_cons, sum_swap_list f rest l2]

theorem totals_eq_closedSum (db : CentralizedDatabase) (hinv : DbInv db) :
    totalsSum db = closedSum db.switchArena := by
  unfold totalsSum
  have h1 : db.quests.map (fun p => p.2.total_attention_time) =
      db.quests.map (fun p => deltaSum db.switchArena p.1) :=
    List.map_congr_left (fun p hp =>
      hinv.totalsEq p.1 p.2 (lookupA_of_mem _ _ _ hinv.qNodup hp))
  rw [h1]
  unfold deltaSum
  rw [sum_swap_list (fun p e =>
    if prevQuestId db.switchArena e = some p.1 then
      closeDelta db.switchArena e else 0) db.quests db.switchArena]
  unfold closedSum
  apply congrArg
  apply List.map_congr_left
  intro e he
  cases hpe : prevEvent db.switchArena e with
  | none =>
      have hterm : ∀ p ∈ db.quests,
          (if prevQuestId db.switchArena e = some p.1 then
            closeDelta db.switchArena e else 0) = (fun _ => (0 : Int)) p := by
        intro p hp
        unfold prevQuestId
        rw [hpe]
        simp
      rw [List.map_congr_left hterm, sum_map_const_zero]
      unfold closeDelta
      rw [hpe]
  | some pv =>
      have hqe : prevQuestId db.switchArena e = some pv.questId := by
        unfold prevQuestId
        rw [hpe]
        rfl
      obtain ⟨q0, hq0⟩ :=
        hinv.eventQuestKey pv (mem_of_prevEvent _ _ _ hpe)
      have hmem : pv.questId ∈ db.quests.map Prod.fst :=
        List.mem_map.mpr ⟨_, mem_of_lookupA _ _ _ hq0, rfl⟩
      have hterm : ∀ p ∈ db.quests,
          (if prevQuestId db.switchArena e = some p.1 then
            closeDelta db.switchArena e else 0) =
          (if pv.questId = p.1 then closeDelta db.switchArena e else 0) := by
        intro p hp
        rw [hqe]
        simp
      rw [List.map_congr_left hterm]
      exact sum_ite_key pv.questId (closeDelta db.switchArena e) db.quests
        hinv.qNodup hmem

/-- C1: For every `add_task_switch_event` call by an existing user on an
existing quest: when the user has a previous switch event `prev`, the newly
constructed event's `duration_on_previous_quest` equals its own timestamp
minus `prev`'s timestamp, and the previous event's destination quest's
accumulated attention time increases by exactly that delta while every
other quest's accumulated time is unchanged; when the user has no previous
event, the new event's duration is absent and no quest's accumulated time
changes. -/
theorem c1_record_switch_duration_and_credit (db : CentralizedDatabase)
    (user_id quest_id : String) (now : Int) (user : User) (quest : Quest)
    (hu : lookupA db.users user_id = some user)
    (hq : lookupA db.quests quest_id = some quest) :
    (∀ i prev pq, user.task_events.getLast? = some i →
      db.switchArena.get? i = some prev →
      lookupA db.quests prev.questId = some pq →
      (∃ e, (add_task_switch_event db user_id quest_id
          now).switchArena.getLast? = some e ∧ e.timestamp = now ∧
        e.duration_on_previous_quest = some (e.timestamp - prev.timestamp)) ∧
      (∀ k q1, lookupA db.quests k = some q1 →
        ∃ q2, lookupA (add_task_switch_event db user_id quest_id
            now).quests k = some q2 ∧
          q2.total_attention_time = q1.total_attention_time +
            (if prev.questId = k then now - prev.timestamp else 0))) ∧
    (user.task_events.getLast? = none →
      (∃ e, (add_task_switch_event db user_id quest_id
          now).switchArena.getLast? = some e ∧
        e.duration_on_previous_quest = none) ∧
      (∀ k q1, lookupA db.quests k = some q1 →
        ∃ q2, lookupA (add_task_switch_event db user_id quest_id
            now).quests k = some q2 ∧
          q2.total_attention_time = q1.total_attention_time)) := by
  constructor
  · intro i prev pq hlast hgi hpq
    have harena : (add_task_switch_event db user_id quest_id now).switchArena
        = db.switchArena ++
          [⟨db.event_counter, user_id, quest_id, some i, now,
            some (now - prev.timestamp)⟩] := by
      rw [add_switch_arena_char db user_id quest_id now user quest hu hq,
        hlast]
      have hb : (some i).bind (fun j => db.switchArena.get? j) = some prev :=
        hgi
      rw [hb]
      rfl
    constructor
    · rw [harena]
      exact ⟨_, List.getLast?_concat _, rfl, rfl⟩
    · intro k q1 h
      have hl := add_quests_char db user_id quest_id now user quest i prev pq
        hu hq hlast hgi hpq k
      rw [h] at hl
      exact ⟨_, hl.trans rfl, rfl⟩
  · intro hlast
    have harena : (add_task_switch_event db user_id quest_id now).switchArena
        = db.switchArena ++
          [⟨db.event_counter, user_id, quest_id, none, now, none⟩] := by
      rw [add_switch_arena_char db user_id quest_id now user quest hu hq,
        hlast]
      rfl
    constructor
    · rw [harena]
      exact ⟨_, List.getLast?_concat _, rfl⟩
    · intro k q1 h
      have hl := add_quests_char_first db user_id quest_id now user quest
        hu hq hlast k
      rw [h] at hl
      exact ⟨_, hl.trans rfl, rfl⟩

def c1db : CentralizedDatabase :=
  add_task_switch_event initialDatabase "user_earth" "quest_reforest" 0

def c1u : User :=
  { user_id := "user_earth", task_events := [0], accomplished_quests := [],
    notifications := [0], accomplishment_notifications := [],
    archived_quests := ∅ }

def c1q : Quest :=
  { quest_id := "quest_clean_water", creator := none,
    total_attention_time := 0, task_events := [], accomplished_by := none }

/-- Witness for C1 at a concrete state: `user_earth` switched to
`quest_reforest` at time 0 and now switches to `quest_clean_water`. -/
theorem c1_witness :
    lookupA c1db.users "user_earth" = some c1u ∧
    lookupA c1db.quests "quest_clean_water" = some c1q ∧
    ((∀ i prev pq, c1u.task_events.getLast? = some i →
      c1db.switchArena.get? i = some prev →
      lookupA c1db.quests prev.questId = some pq →
      (∃ e, (add_task_switch_event c1db "user_earth" "quest_clean_water"
          100).switchArena.getLast? = some e ∧ e.timestamp = 100 ∧
        e.duration_on_previous_quest = some (e.timestamp - prev.timestamp)) ∧
      (∀ k q1, lookupA c1db.quests k = some q1 →
        ∃ q2, lookupA (add_task_switch_event c1db "user_earth"
            "quest_clean_water" 100).quests k = some q2 ∧
          q2.total_attention_time = q1.total_attention_time +
            (if prev.questId = k then 100 - prev.timestamp else 0))) ∧
    (c1u.task_events.getLast? = none →
      (∃ e, (add_task_switch_event c1db "user_earth" "quest_clean_water"
          100).switchArena.getLast? = some e ∧
        e.duration_on_previous_quest = none) ∧
      (∀ k q1, lookupA c1db.quests k = some q1 →
        ∃ q2, lookupA (add_task_switch_event c1db "user_earth"
            "quest_clean_water" 100).quests k = some q2 ∧
          q2.total_attention_time = q1.total_attention_time))) :=
  ⟨by decide, by decide,
    c1_record_switch_duration_and_credit c1db "user_earth"
      "quest_clean_water" 100 c1u c1q (by decide) (by decide)⟩

/-- C2: At every state reached from the initial database by a sequence of
operations with a non-decreasing clock, the sum of every quest's
accumulated attention time equals the sum over all closed attention
intervals of successor timestamp minus predecessor timestamp; each quest's
accumulated time equals the sum of closing deltas recorded against it and
never decreases under further operations; and no user's most recent switch
event is the predecessor of any event (open intervals contribute
nothing). -/
theorem c2_global_attention_invariant (lb : Int) (ops : List Op)
    (hok : timesOkB lb ops = true) :
    totalsSum (applyOps initialDatabase ops) =
      closedSum (applyOps initialDatabase ops).switchArena ∧
    (∀ p ∈ (applyOps initialDatabase ops).quests,
      (Prod.snd p).total_attention_time =
        deltaSum (applyOps initialDatabase ops).switchArena (Prod.fst p)) ∧
    (∀ ops2 : List Op, timesOkB lb (ops ++ ops2) = true →
      ∀ p ∈ (applyOps initialDatabase ops).quests,
        ∃ q2, lookupA (applyOps initialDatabase (ops ++ ops2)).quests
            (Prod.fst p) = some q2 ∧
          (Prod.snd p).total_attention_time ≤ q2.total_attention_time) ∧
    (∀ p ∈ (applyOps initialDatabase ops).users,
      ∀ j, (Prod.snd p).task_events.getLast? = some j →
        ∀ e ∈ (applyOps initialDatabase ops).switchArena,
          e.previous_event ≠ some j) := by
  obtain ⟨hinv, hts, _⟩ := reach_aux ops initialDatabase lb inv_initial
    (tsBound_initial lb) hok
  refine ⟨totals_eq_closedSum _ hinv, ?_, ?_, ?_⟩
  · intro p hp
    exact hinv.totalsEq p.1 p.2 (lookupA_of_mem _ _ _ hinv.qNodup hp)
  · intro ops2 hok2 p hp
    rw [timesOkB_append, Bool.and_eq_true] at hok2
    rw [applyOps_append]
    obtain ⟨_, _, hmono⟩ := reach_aux ops2 (applyOps initialDatabase ops)
      (endTime lb ops) hinv hts hok2.2
    exact hmono p.1 p.2 (lookupA_of_mem _ _ _ hinv.qNodup hp)
  · intro p hp j hj e he
    exact hinv.lastNotPrev p.1 p.2 (lookupA_of_mem _ _ _ hinv.uNodup hp)
      j hj e he

def c2ops : List Op :=
  [Op.switch "user_earth" "quest_reforest" 0,
   Op.switch "user_earth" "quest_clean_water" 100,
   Op.switch "user_sky" "quest_reforest" 150]

/-- Witness for C2 at a concrete non-decreasing operation sequence. -/
theorem c2_witness :
    timesOkB 0 c2ops = true ∧
    totalsSum (applyOps initialDatabase c2ops) =
      closedSum (applyOps initialDatabase c2ops).switchArena :=
  ⟨rfl, (c2_global_attention_invariant 0 c2ops rfl).1⟩

/-- C7: In the strict variant (app3.py), `add_task_switch_event` with an
unknown user id or quest id is a silent no-op: nothing is raised and the
entire database state is returned unchanged (no entity created, no event
appended, no duration or counter changed). -/
theorem c7_strict_switch_noop (db : CentralizedDatabase)
    (user_id quest_id : String) (now : Int)
    (h : lookupA db.users user_id = none ∨
      lookupA db.quests quest_id = none) :
    add_task_switch_event db user_id quest_id now = db :=
  add_noop db user_id quest_id now h

/-- Witness for C7: switching as an unknown user changes nothing. -/
theorem c7_witness :
    (lookupA initialDatabase.users "user_missing" = none ∨
      lookupA initialDatabase.quests "quest_reforest" = none) ∧
    add_task_switch_event initialDatabase "user_missing" "quest_reforest" 0 =
      initialDatabase :=
  ⟨Or.inl (by decide),
    c7_strict_switch_noop initialDatabase "user_missing" "quest_reforest" 0
      (Or.inl (by decide))⟩

def c4db : CentralizedDatabase :=
  add_task_switch_event
    (add_task_switch_event initialDatabase "user_earth" "quest_reforest" 0)
    "user_earth" "quest_clean_water" 100

/-- Counterexample to C4: after `user_earth` switches at t=0 and again at
t=100, the delta 100 is stored in the NEW event's
`duration_on_previous_quest` (arena index 1); the PREVIOUS event (arena
index 0) keeps `duration_on_previous_quest = none`, refuting the claim
that the previous event's duration field is assigned. -/
theorem c4_counterexample :
    ((c4db.switchArena.get? 0).map
      (fun e => e.duration_on_previous_quest) = some none) ∧
    ((c4db.switchArena.get? 1).map
      (fun e => e.duration_on_previous_quest) = some (some 100)) ∧
    ¬ ((c4db.switchArena.get? 0).map
      (fun e => e.duration_on_previous_quest) = some (some 100)) := by
  refine ⟨by decide, by decide, by decide⟩

/-- C4 amended: step 3 computes `delta = now - prev.timestamp`, stores it
in the NEW event's `duration_on_previous_quest` field (the previous
event's record is left unchanged), and adds `delta` to the previous
event's destination quest's accumulated attention time. -/
theorem c4_amended_duration_on_new_event (db : CentralizedDatabase)
    (user_id quest_id : String) (now : Int) (user : User) (quest : Quest)
    (i : Nat) (prev : SwitchEvent) (pq : Quest)
    (hu : lookupA db.users user_id = some user)
    (hq : lookupA db.quests quest_id = some quest)
    (hlast : user.task_events.getLast? = some i)
    (hgi : db.switchArena.get? i = some prev)
    (hpq : lookupA db.quests prev.questId = some pq) :
    (add_task_switch_event db user_id quest_id now).switchArena.get? i =
      some prev ∧
    ((add_task_switch_event db user_id quest_id
        now).switchArena.getLast?).map
      (fun e => e.duration_on_previous_quest) =
      some (some (now - prev.timestamp)) ∧
    (∃ pq2, lookupA (add_task_switch_event db user_id quest_id now).quests
        prev.questId = some pq2 ∧
      pq2.total_attention_time =
        pq.total_attention_time + (now - prev.timestamp)) := by
  have harena : (add_task_switch_event db user_id quest_id now).switchArena
      = db.switchArena ++
        [⟨db.event_counter, user_id, quest_id, some i, now,
          some (now - prev.timestamp)⟩] := by
    rw [add_switch_arena_char db user_id quest_id now user quest hu hq,
      hlast]
    have hb : (some i).bind (fun j => db.switchArena.get? j) = some prev :=
      hgi
    rw [hb]
    rfl
  refine ⟨?_, ?_, ?_⟩
  · rw [harena, List.get?_append (lt_of_get?_eq_some _ _ _ hgi)]
    exact hgi
  · rw [harena, List.getLast?_concat]
    rfl
  · have hl := add_quests_char db user_id quest_id now user quest i prev pq
      hu hq hlast hgi hpq prev.questId
    rw [hpq] at hl
    refine ⟨_, hl.trans rfl, ?_⟩
    simp

def c4prev : SwitchEvent :=
  { event_id := 0, userId := "user_earth", questId := "quest_reforest",
    previous_event := none, timestamp := 0,
    duration_on_previous_quest := none }

def c4pq : Quest :=
  { quest_id := "quest_reforest", creator := none,
    total_attention_time := 0, task_events := [0], accomplished_by := none }

/-- Witness for the amended C4 at the same concrete state as the
counterexample. -/
theorem c4_witness :
    lookupA c1db.users "user_earth" = some c1u ∧
    lookupA c1db.quests "quest_clean_water" = some c1q ∧
    c1u.task_events.getLast? = some 0 ∧
    c1db.switchArena.get? 0 = some c4prev ∧
    lookupA c1db.quests c4prev.questId = some c4pq ∧
    ((add_task_switch_event c1db "user_earth" "quest_clean_water"
        100).switchArena.get? 0 = some c4prev ∧
    ((add_task_switch_event c1db "user_earth" "quest_clean_water"
        100).switchArena.getLast?).map
      (fun e => e.duration_on_previous_quest) =
      some (some (100 - c4prev.timestamp)) ∧
    (∃ pq2, lookupA (add_task_switch_event c1db "user_earth"
        "quest_clean_water" 100).quests c4prev.questId = some pq2 ∧
      pq2.total_attention_time =
        c4pq.total_attention_time + (100 - c4prev.timestamp))) :=
  ⟨by decide, by decide, by decide, by decide, by decide,
    c4_amended_duration_on_new_event c1db "user_earth" "quest_clean_water"
      100 c1u c1q 0 c4prev c4pq (by decide) (by decide) (by decide)
      (by decide) (by decide)⟩

def c3db1 : CentralizedDatabase :=
  accomplish_quest initialDatabase "quest_reforest" "user_earth" 0

/-- Counterexample to C3: in app3.py, `accomplish_quest` performs no
holder check.  After `user_earth` accomplishes `quest_reforest`, a second
`accomplish_quest` by the different user `user_sky` does NOT fail with the
state unchanged: it succeeds and overwrites the holder. -/
theorem c3_counterexample :
    ((lookupA c3db1.quests "quest_reforest").map Quest.accomplished_by =
      some (some "user_earth")) ∧
    "user_earth" ≠ "user_sky" ∧
    accomplish_quest c3db1 "quest_reforest" "user_sky" 1 ≠ c3db1 ∧
    ((lookupA (accomplish_quest c3db1 "quest_reforest" "user_sky"
        1).quests "quest_reforest").map Quest.accomplished_by =
      some (some "user_sky")) := by
  refine ⟨by decide, by decide, by decide, by decide⟩

/-- C3 amended: the guarded variant is app2.py's `claim_stewardship`: a
claim on a quest held by a DIFFERENT user fails and changes no state, and
a claim on a quest with no holder sets the steward and appends the quest
to the claimant's held list.  app3.py's `accomplish_quest` performs no
such check: whenever quest and user exist it installs the caller as
holder, even when a different holder exists. -/
theorem c3_amended_guarded_claim :
    (∀ (db : App2.DB) (quest_id user_id sid : String) (quest : App2.Quest),
      lookupA db.quests quest_id = some quest →
      quest.steward = some sid → sid ≠ user_id →
      App2.claim_stewardship db quest_id user_id = db) ∧
    (∀ (db : App2.DB) (quest_id user_id : String) (quest : App2.Quest)
        (u : App2.User),
      lookupA db.quests quest_id = some quest →
      lookupA db.users user_id = some u →
      quest.steward = none →
      (lookupA (App2.claim_stewardship db quest_id user_id).quests
        quest_id).map App2.Quest.steward = some (some user_id) ∧
      (lookupA (App2.claim_stewardship db quest_id user_id).users
        user_id).map App2.User.stewarded_quests =
        some (u.stewarded_quests ++ [quest_id])) ∧
    (∀ (db : CentralizedDatabase) (quest_id user_id : String) (now : Int)
        (quest : Quest) (u : User),
      lookupA db.quests quest_id = some quest →
      lookupA db.users user_id = some u →
      (lookupA (accomplish_quest db quest_id user_id now).quests
        quest_id).map Quest.accomplished_by = some (some user_id)) := by
  refine ⟨?_, ?_, ?_⟩
  · intro db quest_id user_id sid quest hq2 hst hne
    cases hu2 : lookupA db.users user_id with
    | none => simp only [App2.claim_stewardship, hq2, hu2]
    | some u =>
        simp only [App2.claim_stewardship, hq2, hu2]
        have hcond : ¬ (quest.steward = none ∨
            quest.steward = some user_id) := by
          rw [hst]
          rintro (h | h)
          · exact absurd h (by simp)
          · exact hne (Option.some_inj.mp h)
        rw [if_neg hcond]
  · intro db quest_id user_id quest u hq2 hu2 hst
    simp only [App2.claim_stewardship, hq2, hu2, hst, eq_self_iff_true,
      true_or, if_true]
    constructor
    · rw [lookupA_setA_self]
      rfl
    · rw [lookupA_setA_self]
      rfl
  · intro db quest_id user_id now quest u hq2 hu2
    have hl := accomplish_quests_char db quest_id user_id now quest u hq2
      hu2 quest_id
    rw [if_pos rfl] at hl
    rw [hl]
    rfl

def c3qA : App2.Quest :=
  { quest_id := "quest_reforest", total_attention_time := 0,
    task_events := [], steward := some "user_earth" }

def c3freeDB : App2.DB :=
  { users := [("user_earth", App2.newUser "user_earth")],
    quests := [("quest_x", App2.newQuest "quest_x")] }

def c3q1 : Quest :=
  { quest_id := "quest_reforest", creator := none,
    total_attention_time := 0, task_events := [],
    accomplished_by := some "user_earth" }

/-- Witness for the amended C3: each clause exercised at a concrete
state. -/
theorem c3_witness :
    App2.claim_stewardship App2.initialDB "quest_reforest" "user_sky" =
      App2.initialDB ∧
    ((lookupA (App2.claim_stewardship c3freeDB "quest_x"
        "user_earth").quests "quest_x").map App2.Quest.steward =
      some (some "user_earth") ∧
    (lookupA (App2.claim_stewardship c3freeDB "quest_x"
        "user_earth").users "user_earth").map App2.User.stewarded_quests =
      some ((App2.newUser "user_earth").stewarded_quests ++ ["quest_x"])) ∧
    ((lookupA (accomplish_quest c3db1 "quest_reforest" "user_sky"
        1).quests "quest_reforest").map Quest.accomplished_by =
      some (some "user_sky")) := by
  refine ⟨?_, ?_, ?_⟩
  · exact c3_amended_guarded_claim.1 App2.initialDB "quest_reforest"
      "user_sky" "user_earth" c3qA (by decide) (by decide) (by decide)
  · exact c3_amended_guarded_claim.2.1 c3freeDB "quest_x" "user_earth"
      (App2.newQuest "quest_x") (App2.newUser "user_earth") (by decide)
      (by decide) (by decide)
  · exact c3_amended_guarded_claim.2.2 c3db1 "quest_reforest" "user_sky" 1
      c3q1 (newUser "user_sky") (by decide) (by decide)

/-- C5: every successful `accomplish_quest` emits exactly one
accomplishment event, and appends it to the accomplishment-notification
feed of exactly the de-duplicated set consisting of every user having a
switch event targeting the quest plus the accomplisher: each member's feed
gains exactly one entry and every other user's feed is unchanged. -/
theorem c5_accomplish_notification_fanout (db : CentralizedDatabase)
    (quest_id user_id : String) (now : Int) (quest : Quest) (user : User)
    (hq : lookupA db.quests quest_id = some quest)
    (hu : lookupA db.users user_id = some user) :
    (accomplish_quest db quest_id user_id now).accompArena =
      db.accompArena ++ [⟨user_id, quest_id, now⟩] ∧
    (accomplish_quest db quest_id user_id now).accomplishment_events =
      db.accomplishment_events ++ [db.accompArena.length] ∧
    (∀ k u1, lookupA db.users k = some u1 →
      ∃ u2, lookupA (accomplish_quest db quest_id user_id now).users k =
          some u2 ∧
        u2.accomplishment_notifications =
          u1.accomplishment_notifications ++
            (if k ∈ contributingUsers db quest user_id then
              [db.accompArena.length] else [])) ∧
    user_id ∈ contributingUsers db quest user_id ∧
    (∀ k, k ∈ contributingUsers db quest user_id ↔
      (k = user_id ∨ ∃ i ∈ quest.task_events, ∃ e,
        db.switchArena.get? i = some e ∧ e.userId = k)) := by
  obtain ⟨_, hacc, _, hevts, _⟩ :=
    accomplish_frame db quest_id user_id now quest user hq hu
  refine ⟨hacc, hevts, ?_, ?_, ?_⟩
  · intro k u1 h1
    have hl := accomplish_users_char db quest_id user_id now quest user
      hq hu k
    rw [h1] at hl
    refine ⟨_, hl.trans rfl, ?_⟩
    by_cases h3 : k = user_id
    · subst h3
      by_cases h2 : k ∈ contributingUsers db quest k <;> simp [h2]
    · by_cases h2 : k ∈ contributingUsers db quest user_id <;>
        simp [h2, h3]
  · unfold contributingUsers
    rw [List.mem_dedup]
    simp
  · intro k
    unfold contributingUsers
    rw [List.mem_dedup]
    simp only [List.mem_append, List.mem_map, List.mem_filterMap,
      List.mem_singleton]
    constructor
    · rintro (⟨e, ⟨i, hi, hgi⟩, rfl⟩ | rfl)
      · exact Or.inr ⟨i, hi, e, hgi, rfl⟩
      · exact Or.inl rfl
    · rintro (rfl | ⟨i, hi, e, hgi, hk⟩)
      · exact Or.inr rfl
      · exact Or.inl ⟨e, ⟨i, hi, hgi⟩, hk⟩

def c5db : CentralizedDatabase :=
  applyOps initialDatabase
    [Op.switch "user_earth" "quest_reforest" 0,
     Op.switch "user_sky" "quest_reforest" 5]

def c5q : Quest :=
  { quest_id := "quest_reforest", creator := none,
    total_attention_time := 0, task_events := [0, 1],
    accomplished_by := none }

/-- Witness for C5: `user_earth` and `user_sky` both switched to
`quest_reforest`; `user_earth` accomplishes it, and exactly the set
consisting of `user_earth` and `user_sky` is notified once each while
`user_ocean` is not. -/
theorem c5_witness :
    lookupA c5db.quests "quest_reforest" = some c5q ∧
    (lookupA c5db.users "user_earth").isSome = true ∧
    (accomplish_quest c5db "quest_reforest" "user_earth" 10).accompArena =
      c5db.accompArena ++ [⟨"user_earth", "quest_reforest", 10⟩] ∧
    "user_earth" ∈ contributingUsers c5db c5q "user_earth" ∧
    "user_sky" ∈ contributingUsers c5db c5q "user_earth" ∧
    "user_ocean" ∉ contributingUsers c5db c5q "user_earth" ∧
    (lookupA (accomplish_quest c5db "quest_reforest" "user_earth"
      10).users "user_sky").map User.accomplishment_notifications =
      some [0] ∧
    (lookupA (accomplish_quest c5db "quest_reforest" "user_earth"
      10).users "user_ocean").map User.accomplishment_notifications =
      some [] := by
  refine ⟨by decide, by decide, ?_, by decide, by decide, by decide,
    by decide, by decide⟩
  exact (c5_accomplish_notification_fanout c5db "quest_reforest"
    "user_earth" 10 c5q c1u (by decide) (by decide)).1

/-- Counterexample to C6: with `quest_reforest` held by `user_earth`
(`fromUserId` IS the current holder), `assign_quest` to the nonexistent
user `user_ghost` does not perform the described update: it is a complete
no-op and the holder does not change. -/
theorem c6_counterexample :
    ((lookupA c3db1.quests "quest_reforest").map Quest.accomplished_by =
      some (some "user_earth")) ∧
    lookupA c3db1.users "user_ghost" = none ∧
    assign_quest c3db1 "quest_reforest" "user_ghost" "user_earth" 5 =
      c3db1 ∧
    ¬ ((lookupA (assign_quest c3db1 "quest_reforest" "user_ghost"
        "user_earth" 5).quests "quest_reforest").map Quest.accomplished_by =
      some (some "user_ghost")) := by
  refine ⟨by decide, by decide, by decide, by decide⟩

/-- C6 amended: `assign_quest(questId, toUserId, fromUserId)` fails and
leaves the whole state unchanged when `fromUserId` is not the quest's
current holder, and ALSO when `toUserId` does not exist in the store.
When `fromUserId` is the holder and both users exist, it removes the
quest from `from`'s accomplished list, installs `to` as holder, appends
the quest to `to`'s accomplished list, and emits one new
AccomplishmentEvent delivered to `to`'s notification feed only (every
other user's record is unchanged). -/
theorem c6_amended_assign :
    (∀ (db : CentralizedDatabase) (quest_id to_id from_id : String)
        (now : Int) (quest : Quest),
      lookupA db.quests quest_id = some quest →
      quest.accomplished_by ≠ some from_id →
      assign_quest db quest_id to_id from_id now = db) ∧
    (∀ (db : CentralizedDatabase) (quest_id to_id from_id : String)
        (now : Int),
      lookupA db.users to_id = none →
      assign_quest db quest_id to_id from_id now = db) ∧
    (∀ (db : CentralizedDatabase) (quest_id to_id from_id : String)
        (now : Int) (quest : Quest) (toU fromU : User),
      lookupA db.quests quest_id = some quest →
      lookupA db.users to_id = some toU →
      lookupA db.users from_id = some fromU →
      quest.accomplished_by = some from_id →
      ((lookupA (assign_quest db quest_id to_id from_id now).quests
        quest_id).map Quest.accomplished_by = some (some to_id)) ∧
      ((lookupA (assign_quest db quest_id to_id from_id now).users
        to_id).map User.accomplished_quests =
        some ((if to_id = from_id then
            fromU.accomplished_quests.erase quest_id
          else toU.accomplished_quests) ++ [quest_id])) ∧
      ((lookupA (assign_quest db quest_id to_id from_id now).users
        to_id).map User.accomplishment_notifications =
        some ((if to_id = from_id then fromU
          else toU).accomplishment_notifications ++
            [db.accompArena.length])) ∧
      (to_id ≠ from_id →
        (lookupA (assign_quest db quest_id to_id from_id now).users
          from_id).map User.accomplished_quests =
          some (fromU.accomplished_quests.erase quest_id) ∧
        (lookupA (assign_quest db quest_id to_id from_id now).users
          from_id).map User.accomplishment_notifications =
          some fromU.accomplishment_notifications) ∧
      (∀ k, k ≠ to_id → k ≠ from_id →
        lookupA (assign_quest db quest_id to_id from_id now).users k =
          lookupA db.users k) ∧
      (assign_quest db quest_id to_id from_id now).accompArena =
        db.accompArena ++ [⟨to_id, quest_id, now⟩] ∧
      (assign_quest db quest_id to_id from_id now).accomplishment_events =
        db.accomplishment_events ++ [db.accompArena.length]) := by
  refine ⟨?_, ?_, ?_⟩
  · intro db quest_id to_id from_id now quest hq hguard
    exact assign_noop_guard db quest_id to_id from_id now quest hq hguard
  · intro db quest_id to_id from_id now hto
    exact assign_noop_missing db quest_id to_id from_id now
      (Or.inr (Or.inl hto))
  · intro db quest_id to_id from_id now quest toU fromU hq hto hfrom hguard
    obtain ⟨hucha, hqcha, _, haccA, _, haccE, _⟩ :=
      assign_success_char db quest_id to_id from_id now quest toU fromU
        hq hto hfrom hguard
    refine ⟨?_, ?_, ?_, ?_, ?_, haccA, haccE⟩
    · rw [hqcha quest_id, if_pos rfl]
      rfl
    · rw [hucha to_id, if_pos rfl]
      by_cases htf : to_id = from_id
      · rw [if_pos htf, if_pos htf]
        rfl
      · rw [if_neg htf, if_neg htf]
        rfl
    · rw [hucha to_id, if_pos rfl]
      by_cases htf : to_id = from_id
      · rw [if_pos htf, if_pos htf]
        rfl
      · rw [if_neg htf, if_neg htf]
        rfl
    · intro htf
      rw [hucha from_id, if_neg (fun h => htf h.symm), if_pos rfl]
      exact ⟨rfl, rfl⟩
    · intro k hk1 hk2
      rw [hucha k, if_neg hk1, if_neg hk2]

def c6fromU : User :=
  { user_id := "user_earth", task_events := [],
    accomplished_quests := ["quest_reforest"], notifications := [],
    accomplishment_notifications := [0], archived_quests := ∅ }

/-- Witness for the amended C6: a failed assign by a non-holder leaves the
state unchanged, and a successful assign from `user_earth` (the holder) to
`user_sky` transfers the quest and notifies only `user_sky`. -/
theorem c6_witness :
    assign_quest c3db1 "quest_reforest" "user_ocean" "user_sky" 5 =
      c3db1 ∧
    ((lookupA (assign_quest c3db1 "quest_reforest" "user_sky" "user_earth"
      5).quests "quest_reforest").map Quest.accomplished_by =
      some (some "user_sky")) ∧
    ((lookupA (assign_quest c3db1 "quest_reforest" "user_sky" "user_earth"
      5).users "user_earth").map User.accomplished_quests =
      some (c6fromU.accomplished_quests.erase "quest_reforest")) ∧
    lookupA (assign_quest c3db1 "quest_reforest" "user_sky" "user_earth"
      5).users "user_ocean" = lookupA c3db1.users "user_ocean" := by
  refine ⟨?_, ?_, ?_, ?_⟩
  · exact c6_amended_assign.1 c3db1 "quest_reforest" "user_ocean"
      "user_sky" 5 c3q1 (by decide) (by decide)
  · exact (c6_amended_assign.2.2 c3db1 "quest_reforest" "user_sky"
      "user_earth" 5 c3q1 (newUser "user_sky") c6fromU (by decide)
      (by decide) (by decide) (by decide)).1
  · exact ((c6_amended_assign.2.2 c3db1 "quest_reforest" "user_sky"
      "user_earth" 5 c3q1 (newUser "user_sky") c6fromU (by decide)
      (by decide) (by decide) (by decide)).2.2.2.1 (by decide)).1
  · exact (c6_amended_assign.2.2 c3db1 "quest_reforest" "user_sky"
      "user_earth" 5 c3q1 (newUser "user_sky") c6fromU (by decide)
      (by decide) (by decide) (by decide)).2.2.2.2.1 "user_ocean"
      (by decide) (by decide)

/-- Counterexample to C8: `get_dashboard_data` with a selected user id
absent from the store faults (the source dereferences
`selected_user.archived_quests` on `None`, raising `AttributeError`,
embedded here as `none`): the read does NOT resolve to an empty or
default view. -/
theorem c8_counterexample :
    lookupA initialDatabase.users "user_missing" = none ∧
    get_dashboard_data initialDatabase "user_missing" = none ∧
    (get_dashboard_data initialDatabase "user_missing").isSome = false := by
  refine ⟨by decide, rfl, rfl⟩

/-- C8 amended: `get_dashboard_data` never faults for a selected user id
that exists in the store; for a missing selected user it raises
(`AttributeError` on `selected_user.archived_quests`), modelled as
`none`. -/
theorem c8_amended_dashboard (db : CentralizedDatabase)
    (selected_user_id : String) (u : User)
    (hu : lookupA db.users selected_user_id = some u) :
    (get_dashboard_data db selected_user_id).isSome = true := by
  simp only [get_dashboard_data, hu]
  rfl

/-- Witness for the amended C8 at the initial database. -/
theorem c8_witness :
    lookupA initialDatabase.users "user_earth" =
      some (newUser "user_earth") ∧
    (get_dashboard_data initialDatabase "user_earth").isSome = true :=
  ⟨by decide,
    c8_amended_dashboard initialDatabase "user_earth"
      (newUser "user_earth") (by decide)⟩

def c9db : CentralizedDatabase :=
  archive_quest initialDatabase "user_earth" "quest_reforest"

/-- Counterexample to C9: starting from a state where `quest_reforest` is
ALREADY in `user_earth`'s archived set, archive followed by unarchive does
not restore the prior archived set: the quest is lost from it. -/
theorem c9_counterexample :
    ((lookupA c9db.users "user_earth").map User.archived_quests =
      some {"quest_reforest"}) ∧
    ((lookupA (unarchive_quest
        (archive_quest c9db "user_earth" "quest_reforest")
        "user_earth" "quest_reforest").users "user_earth").map
      User.archived_quests = some ∅) ∧
    ¬ ((lookupA (unarchive_quest
        (archive_quest c9db "user_earth" "quest_reforest")
        "user_earth" "quest_reforest").users "user_earth").map
      User.archived_quests = some {"quest_reforest"}) := by
  refine ⟨by decide, by decide, by decide⟩

/-- C9 amended: archive followed by unarchive of the same quest by the
same user restores that user's archived set to its prior value, provided
the quest was not already in the user's archived set beforehand. -/
theorem c9_amended_archive_roundtrip (db : CentralizedDatabase)
    (user_id quest_id : String) (u : User)
    (hu : lookupA db.users user_id = some u)
    (hmem : quest_id ∉ u.archived_quests) :
    ∃ u2, lookupA (unarchive_quest
        (archive_quest db user_id quest_id) user_id quest_id).users
        user_id = some u2 ∧
      u2.archived_quests = u.archived_quests := by
  by_cases hqk : (lookupA db.quests quest_id).isSome
  · have harch := archive_users_char db user_id quest_id u hu user_id
    rw [if_pos rfl, if_pos hqk] at harch
    have hun := unarchive_users_char (archive_quest db user_id quest_id)
      user_id quest_id
      { u with archived_quests := insert quest_id u.archived_quests }
      harch user_id
    rw [if_pos rfl] at hun
    have hm2 : quest_id ∈ ({ u with
        archived_quests := insert quest_id u.archived_quests } :
          User).archived_quests :=
      Finset.mem_insert_self _ _
    rw [if_pos hm2] at hun
    refine ⟨_, hun, ?_⟩
    show (insert quest_id u.archived_quests).erase quest_id =
      u.archived_quests
    exact Finset.erase_insert hmem
  · have hnone : lookupA db.quests quest_id = none :=
      Option.not_isSome_iff_eq_none.mp hqk
    rw [archive_noop db user_id quest_id (Or.inr hnone)]
    refine ⟨u, ?_, rfl⟩
    simp only [unarchive_quest, hu, if_neg hmem]

/-- Witness for the amended C9: `user_earth` has nothing archived;
archiving then unarchiving `quest_reforest` restores the empty set. -/
theorem c9_witness :
    lookupA initialDatabase.users "user_earth" =
      some (newUser "user_earth") ∧
    "quest_reforest" ∉ (newUser "user_earth").archived_quests ∧
    ((lookupA (unarchive_quest
        (archive_quest initialDatabase "user_earth" "quest_reforest")
        "user_earth" "quest_reforest").users "user_earth").map
      User.archived_quests = some (newUser "user_earth").archived_quests) := by
  refine ⟨by decide, by decide, ?_⟩
  obtain ⟨u2, h1, h2⟩ := c9_amended_archive_roundtrip initialDatabase
    "user_earth" "quest_reforest" (newUser "user_earth") (by decide)
    (by decide)
  rw [h1]
  simp [h2]

/-- C10: `archive_quest` and `unarchive_quest` modify at most the acting
user's archived-quest set: every quest (with its accumulated duration,
holder, creator and event list), the arenas, the global event log, the
accomplishment-event list and the counter are unchanged; every other
user's record is unchanged; and the acting user's own chain, accomplished
list and both notification feeds are unchanged. -/
theorem c10_archive_frame (db : CentralizedDatabase)
    (user_id quest_id : String) :
    ((archive_quest db user_id quest_id).quests = db.quests ∧
     (archive_quest db user_id quest_id).switchArena = db.switchArena ∧
     (archive_quest db user_id quest_id).accompArena = db.accompArena ∧
     (archive_quest db user_id quest_id).events = db.events ∧
     (archive_quest db user_id quest_id).accomplishment_events =
       db.accomplishment_events ∧
     (archive_quest db user_id quest_id).event_counter = db.event_counter ∧
     (∀ k, k ≠ user_id → lookupA (archive_quest db user_id quest_id).users
       k = lookupA db.users k) ∧
     (∀ u, lookupA db.users user_id = some u →
       ∃ u2, lookupA (archive_quest db user_id quest_id).users user_id =
           some u2 ∧
         u2.user_id = u.user_id ∧ u2.task_events = u.task_events ∧
         u2.accomplished_quests = u.accomplished_quests ∧
         u2.notifications = u.notifications ∧
         u2.accomplishment_notifications =
           u.accomplishment_notifications)) ∧
    ((unarchive_quest db user_id quest_id).quests = db.quests ∧
     (unarchive_quest db user_id quest_id).switchArena = db.switchArena ∧
     (unarchive_quest db user_id quest_id).accompArena = db.accompArena ∧
     (unarchive_quest db user_id quest_id).events = db.events ∧
     (unarchive_quest db user_id quest_id).accomplishment_events =
       db.accomplishment_events ∧
     (unarchive_quest db user_id quest_id).event_counter =
       db.event_counter ∧
     (∀ k, k ≠ user_id → lookupA (unarchive_quest db user_id
       quest_id).users k = lookupA db.users k) ∧
     (∀ u, lookupA db.users user_id = some u →
       ∃ u2, lookupA (unarchive_quest db user_id quest_id).users user_id =
           some u2 ∧
         u2.user_id = u.user_id ∧ u2.task_events = u.task_events ∧
         u2.accomplished_quests = u.accomplished_quests ∧
         u2.notifications = u.notifications ∧
         u2.accomplishment_notifications =
           u.accomplishment_notifications)) := by
  obtain ⟨ha1, ha2, ha3, ha4, ha5, ha6⟩ := archive_frame db user_id quest_id
  obtain ⟨hb1, hb2, hb3, hb4, hb5, hb6⟩ :=
    unarchive_frame db user_id quest_id
  refine ⟨⟨ha1, ha2, ha3, ha4, ha5, ha6, ?_, ?_⟩,
    ⟨hb1, hb2, hb3, hb4, hb5, hb6, ?_, ?_⟩⟩
  · intro k hk
    cases hu : lookupA db.users user_id with
    | none => rw [archive_noop db user_id quest_id (Or.inl hu)]
    | some u =>
        rw [archive_users_char db user_id quest_id u hu k, if_neg hk]
  · intro u hu
    have hl := archive_users_char db user_id quest_id u hu user_id
    rw [if_pos rfl] at hl
    by_cases hqk : (lookupA db.quests quest_id).isSome
    · rw [if_pos hqk] at hl
      exact ⟨_, hl, rfl, rfl, rfl, rfl, rfl⟩
    · rw [if_neg hqk] at hl
      exact ⟨_, hl, rfl, rfl, rfl, rfl, rfl⟩
  · intro k hk
    cases hu : lookupA db.users user_id with
    | none =>
        have hdb : unarchive_quest db user_id quest_id = db := by
          unfold unarchive_quest
          rw [hu]
        rw [hdb]
    | some u =>
        rw [unarchive_users_char db user_id quest_id u hu k, if_neg hk]
  · intro u hu
    have hl := unarchive_users_char db user_id quest_id u hu user_id
    rw [if_pos rfl] at hl
    by_cases hqk : quest_id ∈ u.archived_quests
    · rw [if_pos hqk] at hl
      exact ⟨_, hl, rfl, rfl, rfl, rfl, rfl⟩
    · rw [if_neg hqk] at hl
      exact ⟨_, hl, rfl, rfl, rfl, rfl, rfl⟩

/-- Witness for C10 at a concrete state: archiving `quest_reforest` for
`user_earth` leaves the quests, arenas and the other users untouched. -/
theorem c10_witness :
    (archive_quest initialDatabase "user_earth" "quest_reforest").quests =
      initialDatabase.quests ∧
    lookupA (archive_quest initialDatabase "user_earth"
      "quest_reforest").users "user_sky" =
      lookupA initialDatabase.users "user_sky" ∧
    ((lookupA (archive_quest initialDatabase "user_earth"
      "quest_reforest").users "user_earth").map User.task_events =
      some (newUser "user_earth").task_events) := by
  have h := c10_archive_frame initialDatabase "user_earth" "quest_reforest"
  refine ⟨h.1.1, h.1.2.2.2.2.2.2.1 "user_sky" (by decide), ?_⟩
  obtain ⟨u2, h1, _, h2, _⟩ :=
    h.1.2.2.2.2.2.2.2 (newUser "user_earth") (by decide)
  rw [h1]
  simp [h2]
